import Mathlib

/-!
Verification development for the India corporate-announcements tracker.

The repository ships two variants of the scraper:
  * `scripts/scrape_announcements.py`  — modelled below in namespace `V1`
    (deduplicating normalizer, 4 highlight patterns, compact rating labels
    whose star glyphs are stored in the file as the mojibake bytes
    U+201A U+00F2 U+00D6 per star);
  * `scripts:scrape_announcements.py`  — modelled below in namespace `V2`
    (no deduplication, extra `Investment` category rule, 8 highlight
    patterns, `MODERATE POSITIVE` label, proper `★` glyphs).

Dynamically-typed Python values that flow through the normalizer are
modelled by `PyVal`; operations that can raise `TypeError` on a value of
the wrong shape return `Option`.  The `re` module applied to the fixed
pattern set of `extract_key_highlights` is treated as an external
collaborator and modelled by the record `Re` of per-pattern `findall`
results.  `datetime.now()` is passed in explicitly as a `PyDateTime`.
-/

/-- Model of a dynamically typed Python value appearing in a raw
announcement record: a string, an integer, `None`, or a list of strings. -/
inductive PyVal where
  | pstr (s : String)
  | pint (n : Int)
  | pnone
  | plist (xs : List String)
deriving DecidableEq, Inhabited

/-- The single-quote character, used by Python `repr` of strings. -/
def pyQuote : String := String.mk [Char.ofNat 39]

/-- Join a list of strings with a separator (`sep.join(xs)`); implemented
on character lists so that it evaluates inside the kernel. -/
def joinSep (sep : String) : List String → String
  | [] => ("")
  | x :: xs => xs.foldl (fun acc y => acc ++ sep ++ y) x

/-- Python slice `s[:n]` on strings, by code points. -/
def pyTake (s : String) (n : Nat) : String := String.mk (s.data.take n)

/-- Python `str.strip()` (ASCII whitespace). -/
def pyStrip (s : String) : String :=
  String.mk (((s.data.dropWhile Char.isWhitespace).reverse.dropWhile Char.isWhitespace).reverse)

/-- Split a character list on the period character, as `text.split('.')`. -/
def splitDot : List Char → List (List Char)
  | [] => [[]]
  | c :: t =>
    if c = '.' then [] :: splitDot t
    else
      match splitDot t with
      | h :: rt => (c :: h) :: rt
      | [] => [[c]]

/-- Python `text.split('.')`. -/
def pySplitDot (s : String) : List String := (splitDot s.data).map String.mk

/-- Model of Python `str(v)` on the values of `PyVal`. -/
def pyStr : PyVal → String
  | .pstr s => s
  | .pint n => toString n
  | .pnone => ("None")
  | .plist xs => ("[") ++ joinSep (", ") (xs.map (fun x => pyQuote ++ x ++ pyQuote)) ++ ("]")

/-- Model of Python truthiness on the values of `PyVal`. -/
def pyTruthy : PyVal → Bool
  | .pstr s => !s.data.isEmpty
  | .pint n => n != 0
  | .pnone => false
  | .plist xs => !xs.isEmpty

/-- Model of the Python slice `v[:n]`: strings and lists are sliceable,
`int` and `None` raise `TypeError` (modelled by `none`). -/
def pySlice (n : Nat) : PyVal → Option PyVal
  | .pstr s => some (.pstr (pyTake s n))
  | .plist xs => some (.plist (xs.take n))
  | .pint _ => none
  | .pnone => none

/-- Whether a `PyVal` is a Python `str` (the `isinstance(v, str)` test). -/
def pyIsStr : PyVal → Bool
  | .pstr _ => true
  | _ => false

/-- Boolean test that `pat` occurs at the head of `rest`. -/
def leadsWith (pat rest : List Char) : Bool :=
  match pat with
  | [] => true
  | p0 :: ptl =>
    match rest with
    | [] => false
    | r0 :: rtl => p0 = r0 && leadsWith ptl rtl

/-- Boolean test that `needle` occurs somewhere inside `hay`
(contiguously).  Model of Python `needle in hay` on lists of characters. -/
def subAt : List Char → List Char → Bool
  | needle, [] => needle.isEmpty
  | needle, c :: t => leadsWith needle (c :: t) || subAt needle t

/-- Model of the Python substring test `needle in hay`. -/
def containsSub (hay needle : String) : Bool := subAt needle.data hay.data

/-- Model of Python `str.lower()` (faithful on ASCII text, which is all the
pipeline's keyword matching relies on). -/
def pyLower (s : String) : String := String.mk (s.data.map Char.toLower)

/-- One step of Python `str.title()`: the boolean records whether the
previous character was alphabetic. -/
def titleAux : Bool → List Char → List Char
  | _, [] => []
  | prev, c :: cs =>
    (if c.isAlpha then (if prev then c.toLower else c.toUpper) else c) :: titleAux c.isAlpha cs

/-- Model of Python `str.title()` (faithful on ASCII text). -/
def pyTitle (s : String) : String := String.mk (titleAux false s.data)

/-- Model of `sum(1 for kw in kws if kw in text)`: the number of keywords of
`kws` occurring as substrings of `text`, each keyword counted once. -/
def countHits (kws : List String) (text : String) : Nat :=
  (kws.filter (fun kw => containsSub text kw)).length

/-- Model of a Python `datetime`: calendar fields plus an optional
timezone offset in minutes (present for aware datetimes produced by
`fromisoformat` on inputs carrying a zone suffix). -/
structure PyDateTime where
  year : Nat
  month : Nat
  day : Nat
  hour : Nat
  minute : Nat
  second : Nat
  tz : Option Int
deriving DecidableEq

/-- Number of days in a month of the proleptic Gregorian calendar, as
validated by the `datetime` constructor. -/
def daysInMonth (y m : Nat) : Nat :=
  if m = 2 then (if y % 4 = 0 && (y % 100 != 0 || y % 400 = 0) then 29 else 28)
  else if m = 4 || m = 6 || m = 9 || m = 11 then 30
  else 31

/-- Decimal digit character for `d < 10`. -/
def digitChar (d : Nat) : Char := Char.ofNat (48 + d)

/-- Numeric value of a decimal digit character. -/
def digitVal (c : Char) : Option Nat :=
  if c.isDigit then some (c.toNat - 48) else none

/-- Parse exactly two decimal digits. -/
def parse2 : List Char → Option (Nat × List Char)
  | a :: b :: r =>
    match digitVal a, digitVal b with
    | some x, some y => some (10 * x + y, r)
    | _, _ => none
  | _ => none

/-- Parse exactly four decimal digits. -/
def parse4 (l : List Char) : Option (Nat × List Char) :=
  (parse2 l).bind fun p => (parse2 p.2).map fun q => (100 * p.1 + q.1, q.2)

/-- Parse one or (greedily) two decimal digits, as the `strptime`
directives `%d`, `%H`, `%M`, `%S` do. -/
def parse12 : List Char → Option (Nat × List Char)
  | a :: rest =>
    (digitVal a).bind fun x =>
      match rest with
      | b :: r2 =>
        match digitVal b with
        | some y => some (10 * x + y, r2)
        | none => some (x, rest)
      | [] => some (x, [])
  | [] => none

/-- Consume one expected character. -/
def expectChar (c : Char) : List Char → Option (List Char)
  | x :: r => if x = c then some r else none
  | [] => none

/-- Structural parse of a timezone suffix `+HH:MM` / `-HH:MM` (or nothing),
requiring the end of input afterwards.  The boolean is the sign. -/
def parseOff : List Char → Option (Option (Bool × Nat × Nat))
  | [] => some none
  | '+' :: r =>
    (parse2 r).bind fun p =>
      (expectChar ':' p.2).bind fun r2 =>
        (parse2 r2).bind fun q =>
          if q.2 = [] then some (some (false, p.1, q.1)) else none
  | '-' :: r =>
    (parse2 r).bind fun p =>
      (expectChar ':' p.2).bind fun r2 =>
        (parse2 r2).bind fun q =>
          if q.2 = [] then some (some (true, p.1, q.1)) else none
  | _ => none

/-- Consume an optional fractional-second suffix `.digits` (at least one
digit).  The digits are consumed and not retained: nothing this program
does with a parsed datetime observes microseconds (neither `%d %b %Y`,
`%d %B %Y` nor `%I:%M %p` formats them, and the dedup key uses the raw
field string). -/
def parseFrac : List Char → Option (List Char)
  | '.' :: r =>
    match r with
    | c :: _ => if c.isDigit then some (r.dropWhile Char.isDigit) else none
    | [] => none
  | rest => some rest

/-- Structural parse of an ISO-8601 date-time
`YYYY-MM-DD[THH[:MM[:SS[.frac]]][±HH:MM]]` into its raw numeric components
(validation is done afterwards, mirroring the `datetime` constructor). -/
def parseIsoCore (l : List Char) : Option (Nat × Nat × Nat × Nat × Nat × Nat × Option (Bool × Nat × Nat)) :=
  (parse4 l).bind fun py =>
    (expectChar '-' py.2).bind fun r1 =>
      (parse2 r1).bind fun pmo =>
        (expectChar '-' pmo.2).bind fun r2 =>
          (parse2 r2).bind fun pd =>
            match pd.2 with
            | [] => some (py.1, pmo.1, pd.1, 0, 0, 0, none)
            | 'T' :: tr =>
              (parse2 tr).bind fun ph =>
                match ph.2 with
                | ':' :: r3 =>
                  (parse2 r3).bind fun pmi =>
                    match pmi.2 with
                    | ':' :: r4 =>
                      (parse2 r4).bind fun ps =>
                        (parseFrac ps.2).bind fun r5 =>
                          (parseOff r5).map fun off =>
                            (py.1, pmo.1, pd.1, ph.1, pmi.1, ps.1, off)
                    | rest =>
                      (parseOff rest).map fun off =>
                        (py.1, pmo.1, pd.1, ph.1, pmi.1, 0, off)
                | rest =>
                  (parseOff rest).map fun off =>
                    (py.1, pmo.1, pd.1, ph.1, 0, 0, off)
            | _ => none

/-- Validity of a parsed timezone offset (`fromisoformat` rejects minute
fields of 60 or more and hour fields of 24 or more). -/
def offOk : Option (Bool × Nat × Nat) → Prop
  | none => True
  | some (_, oh, om) => oh ≤ 23 ∧ om ≤ 59

instance (o : Option (Bool × Nat × Nat)) : Decidable (offOk o) := by
  cases o with
  | none => exact isTrue trivial
  | some p => exact (inferInstance : Decidable (p.2.1 ≤ 23 ∧ p.2.2 ≤ 59))

/-- Signed offset minutes of a parsed timezone suffix. -/
def offMinutes (o : Option (Bool × Nat × Nat)) : Option Int :=
  o.map fun t => if t.1 then -((t.2.1 * 60 + t.2.2 : Nat) : Int) else ((t.2.1 * 60 + t.2.2 : Nat) : Int)

/-- Model of Python `datetime.fromisoformat` on the shapes this pipeline
feeds it (the `Z` suffix has already been replaced by the caller):
structural match followed by the `datetime` constructor's range
validation, including its `MINYEAR = 1` lower bound on the year. -/
def pyFromIsoformat (s : String) : Option PyDateTime :=
  match parseIsoCore s.data with
  | none => none
  | some (y, mo, d, h, mi, sec, off) =>
    if 1 ≤ y ∧ 1 ≤ mo ∧ mo ≤ 12 ∧ 1 ≤ d ∧ d ≤ daysInMonth y mo ∧ h ≤ 23 ∧ mi ≤ 59 ∧ sec ≤ 59 ∧ offOk off
    then some ⟨y, mo, d, h, mi, sec, offMinutes off⟩ else none

/-- Lower-cased three-letter month abbreviations with their month numbers
(the `%b` directive of `strptime` matches them case-insensitively). -/
def monthTable : List (List Char × Nat) :=
  [(['j','a','n'], 1), (['f','e','b'], 2), (['m','a','r'], 3), (['a','p','r'], 4),
   (['m','a','y'], 5), (['j','u','n'], 6), (['j','u','l'], 7), (['a','u','g'], 8),
   (['s','e','p'], 9), (['o','c','t'], 10), (['n','o','v'], 11), (['d','e','c'], 12)]

/-- Case-insensitive lookup of a three-letter month abbreviation. -/
def month3 (a b c : Char) : Option Nat :=
  List.lookup [a.toLower, b.toLower, c.toLower] monthTable

/-- Structural parse of the fixed `strptime` format
`%d-%b-%Y %H:%M:%S` into raw components `(day, month, year, h, m, s)`. -/
def parseDbYCore (l : List Char) : Option (Nat × Nat × Nat × Nat × Nat × Nat) :=
  (parse12 l).bind fun pd =>
    (expectChar '-' pd.2).bind fun r1 =>
      match r1 with
      | a :: b :: c :: r2 =>
        (month3 a b c).bind fun mo =>
          (expectChar '-' r2).bind fun r3 =>
            (parse4 r3).bind fun py =>
              (expectChar ' ' py.2).bind fun r4 =>
                (parse12 r4).bind fun ph =>
                  (expectChar ':' ph.2).bind fun r5 =>
                    (parse12 r5).bind fun pmi =>
                      (expectChar ':' pmi.2).bind fun r6 =>
                        (parse12 r6).bind fun ps =>
                          if ps.2 = [] then some (pd.1, mo, py.1, ph.1, pmi.1, ps.1) else none
      | _ => none

/-- Model of `datetime.strptime(s, '%d-%b-%Y %H:%M:%S')`: structural match
followed by the `datetime` constructor's range validation. -/
def pyStrptimeDbY (s : String) : Option PyDateTime :=
  match parseDbYCore s.data with
  | none => none
  | some (d, mo, y, h, mi, sec) =>
    if 1 ≤ y ∧ 1 ≤ d ∧ d ≤ daysInMonth y mo ∧ h ≤ 23 ∧ mi ≤ 59 ∧ sec ≤ 59
    then some ⟨y, mo, d, h, mi, sec, none⟩ else none

/-- Model of `s.replace('Z', '+00:00')`: every occurrence of the single
character `Z` is expanded to `+00:00`. -/
def replaceZ : List Char → List Char
  | [] => []
  | c :: rest =>
    if c = 'Z' then '+' :: '0' :: '0' :: ':' :: '0' :: '0' :: replaceZ rest
    else c :: replaceZ rest

/-- Two-digit zero-padded decimal rendering (for values below 100), as
produced by the zero-padded `strftime` directives. -/
def fmt2Chars (n : Nat) : List Char := [digitChar (n / 10 % 10), digitChar (n % 10)]

/-- Two-digit zero-padded decimal string. -/
def fmt2Str (n : Nat) : String := String.mk (fmt2Chars n)

/-- Four-digit zero-padded decimal rendering (for values below 10000). -/
def pad4Chars (n : Nat) : List Char := fmt2Chars (n / 100) ++ fmt2Chars (n % 100)

/-- Abbreviated month names of the C locale, used by `%b`, as character
lists. -/
def monthAbbrChars : Nat → List Char
  | 1 => ['J','a','n'] | 2 => ['F','e','b'] | 3 => ['M','a','r'] | 4 => ['A','p','r']
  | 5 => ['M','a','y'] | 6 => ['J','u','n'] | 7 => ['J','u','l'] | 8 => ['A','u','g']
  | 9 => ['S','e','p'] | 10 => ['O','c','t'] | 11 => ['N','o','v'] | _ => ['D','e','c']

/-- Abbreviated month names of the C locale, used by `%b`. -/
def monthAbbr (m : Nat) : String := String.mk (monthAbbrChars m)

/-- Full month names of the C locale, used by `%B`. -/
def monthFull : Nat → String
  | 1 => ("January") | 2 => ("February") | 3 => ("March") | 4 => ("April")
  | 5 => ("May") | 6 => ("June") | 7 => ("July") | 8 => ("August")
  | 9 => ("September") | 10 => ("October") | 11 => ("November") | _ => ("December")

/-- Model of `dt.strftime('%d %b %Y')`. -/
def fmtDateAbbr (dt : PyDateTime) : String :=
  fmt2Str dt.day ++ (" ") ++ monthAbbr dt.month ++ (" ") ++ toString dt.year

/-- Model of `dt.strftime('%d %B %Y')`. -/
def fmtDateFull (dt : PyDateTime) : String :=
  fmt2Str dt.day ++ (" ") ++ monthFull dt.month ++ (" ") ++ toString dt.year

/-- Model of `dt.strftime('%I:%M %p')`. -/
def fmtTime12 (dt : PyDateTime) : String :=
  fmt2Str (if dt.hour % 12 = 0 then 12 else dt.hour % 12) ++ (":") ++ fmt2Str dt.minute
    ++ (" ") ++ (if dt.hour < 12 then ("AM") else ("PM"))

/-- The date-parsing dispatch shared by both variants (lines 214-221 of the
compact script, 267-274 of the extended one): a string containing `T` goes
through `fromisoformat` after the `Z` replacement, any other string through
`strptime('%d-%b-%Y %H:%M:%S')`, and a non-string value is replaced by
`datetime.now()`.  The result is `none` exactly when the Python code would
enter the `except` branch. -/
def parseNewsDt (now : PyDateTime) (v : PyVal) : Option PyDateTime :=
  match v with
  | .pstr s =>
    if containsSub s ("T") then pyFromIsoformat (String.mk (replaceZ s.data))
    else pyStrptimeDbY s
  | _ => some now

/-- Positive sentiment keywords (identical in both script variants). -/
def POSITIVE_KEYWORDS : List String :=
  [("profit increase"), ("profit up"), ("revenue growth"), ("dividend"), ("bonus"),
   ("acquisition"), ("expansion"), ("new order"), ("contract win"), ("upgrade"),
   ("record"), ("highest ever"), ("beat estimates"), ("outperform"), ("growth"),
   ("investment"), ("capex"), ("expansion plan"), ("new plant"), ("capacity addition")]

/-- Negative sentiment keywords (identical in both script variants). -/
def NEGATIVE_KEYWORDS : List String :=
  [("profit decline"), ("profit down"), ("revenue decline"), ("loss"), ("downgrade"),
   ("resign"), ("exit"), ("closure"), ("default"), ("penalty"), ("fraud"),
   ("miss estimates"), ("underperform"), ("weak"), ("challenging")]

/-- Category bonus added to the positive count before the threshold
comparison (lines 177-180 / 236-239 of the two scripts). -/
def catBonus (category : String) : Nat :=
  if category ∈ [("Dividend"), ("Order Win"), ("Expansion")] then 2
  else if category = ("Fund Raising") then 1
  else 0

/-- External-collaborator model of the `re` module applied to the fixed
pattern dictionary of `extract_key_highlights`: one `findall` result
function per named pattern, plus the generic percent-change pattern whose
matches are `(word, percentage)` pairs.  The compact variant uses only the
first four named patterns; the extended variant uses all eight. -/
structure Re where
  revenue : String → List String
  profit : String → List String
  growth : String → List String
  dividend : String → List String
  order_value : String → List String
  ebitda : String → List String
  margin : String → List String
  eps : String → List String
  pct : String → List (String × String)

/-- A findall with no matches on any text. -/
def noHits (t : String) : List String := []

/-- A percent-change findall with no matches on any text. -/
def noPairHits (t : String) : List (String × String) := []

/-- The regex engine returning no match for anything (a convenient
concrete instantiation for witnesses). -/
def reNone : Re :=
  { revenue := noHits, profit := noHits, growth := noHits, dividend := noHits,
    order_value := noHits, ebitda := noHits, margin := noHits, eps := noHits,
    pct := noPairHits }

/-- Tag up to two pattern matches as `"{METRIC}: {match}"`, as the pattern
loop of `extract_key_highlights` does for each named pattern. -/
def tagMatches (name : String) (ms : List String) : List String :=
  (ms.take 2).map (fun m => name ++ (": ") ++ m)

/-- A raw announcement record: a mapping that may carry any of the two
known field-name shapes (`None`-valued fields are `some .pnone`; absent
fields are `none`). -/
structure RawAnn where
  SLONGNAME : Option PyVal
  COMPANY_NAME : Option PyVal
  SCRIP_CD : Option PyVal
  SYMBOL : Option PyVal
  NEWSSUB : Option PyVal
  SUBJECT : Option PyVal
  NEWS_DT : Option PyVal
  DATE : Option PyVal
  ATTACHMENTNAME : Option PyVal
  ATTACHMENT : Option PyVal
deriving DecidableEq

/-- Convenience constructor for records of the primary (BSE) field shape. -/
def mkRaw (scrip subj dt : PyVal) : RawAnn :=
  ⟨none, none, some scrip, none, some subj, none, some dt, none, none, none⟩

/-- Field lookup `ann.get('SLONGNAME', ann.get('COMPANY_NAME', 'Unknown'))`. -/
def companyVal (a : RawAnn) : PyVal :=
  a.SLONGNAME.getD (a.COMPANY_NAME.getD (.pstr ("Unknown")))

/-- Field lookup `ann.get('NEWSSUB', ann.get('SUBJECT', ''))`. -/
def subjVal (a : RawAnn) : PyVal :=
  a.NEWSSUB.getD (a.SUBJECT.getD (.pstr ("")))

/-- Field lookup `ann.get('NEWS_DT', ann.get('DATE', ''))`. -/
def newsDtVal (a : RawAnn) : PyVal :=
  a.NEWS_DT.getD (a.DATE.getD (.pstr ("")))

/-- Field lookup `ann.get('ATTACHMENTNAME', ann.get('ATTACHMENT', ''))`. -/
def attachVal (a : RawAnn) : PyVal :=
  a.ATTACHMENTNAME.getD (a.ATTACHMENT.getD (.pstr ("")))

/-- Raw scrip value `ann.get('SCRIP_CD', ann.get('SYMBOL', ''))`. -/
def scripVal (a : RawAnn) : PyVal :=
  a.SCRIP_CD.getD (a.SYMBOL.getD (.pstr ("")))

/-- The PDF base URL shared by both variants. -/
def bsePdfBase : String := "https://www.bseindia.com/xml-data/corpfiling/AttachLive"

/-- First-match evaluation of an ordered keyword-rule cascade: the
`if`/`elif` chain of `categorize_announcement`, with `Others` as the final
`else`. -/
def firstMatch : List (List String × String) → String → String
  | [], _ => ("Others")
  | r :: rest, text =>
    if r.1.any (fun kw => containsSub text kw) then r.2 else firstMatch rest text

/-- Whether one rule of the cascade fires on the given (already
lower-cased) text. -/
def ruleHit (text : String) (r : List String × String) : Bool :=
  r.1.any (fun kw => containsSub text kw)

namespace V1

/-- Ordered category rule list of `scripts/scrape_announcements.py`
(lines 108-137), exactly the rule list of the design spec. -/
def categoryRules : List (List String × String) :=
  [([("board meeting"), ("meeting of board")], ("Board Meeting")),
   ([("financial result"), ("quarterly result"), ("annual result"), ("q1"), ("q2"), ("q3"), ("q4")], ("Financial Results")),
   ([("dividend"), ("interim dividend"), ("final dividend")], ("Dividend")),
   ([("agm"), ("egm"), ("annual general"), ("extraordinary general")], ("AGM/EGM")),
   ([("acquisition"), ("acquire"), ("takeover")], ("Acquisition")),
   ([("investor presentation"), ("analyst meet"), ("investor meet")], ("Investor Presentation")),
   ([("fund raising"), ("qip"), ("preferential"), ("rights issue"), ("fpo")], ("Fund Raising")),
   ([("merger"), ("demerger"), ("amalgamation"), ("scheme of arrangement")], ("Merger/Demerger")),
   ([("director"), ("appointment"), ("resignation"), ("cessation")], ("Change in Directors")),
   ([("bonus"), ("split"), ("buyback"), ("corporate action")], ("Corporate Action")),
   ([("concall"), ("conference call"), ("earnings call"), ("transcript")], ("Concall Transcript")),
   ([("order"), ("contract"), ("award"), ("mandate")], ("Order Win")),
   ([("expansion"), ("capacity"), ("capex"), ("new plant"), ("new facility")], ("Expansion")),
   ([("rating"), ("credit rating"), ("upgrade"), ("downgrade")], ("Rating"))]

/-- Categorizer of the compact variant: first matching rule wins over the
lower-cased concatenation of subject and description. -/
def categorize_announcement (subject description : String) : String :=
  firstMatch categoryRules (pyLower (subject ++ (" ") ++ description))

/-- Highlight extractor of the compact variant (lines 140-167): named
patterns (two matches each), then percent changes (three), else long
sentence fragments truncated to 100 characters, else the sentinel; at most
four items joined by a bar separator. -/
def extract_key_highlights (re : Re) (text category : String) : String :=
  let text_lower := pyLower text
  let patHits :=
    tagMatches ("REVENUE") (re.revenue text_lower) ++
    tagMatches ("PROFIT") (re.profit text_lower) ++
    tagMatches ("GROWTH") (re.growth text_lower) ++
    tagMatches ("DIVIDEND") (re.dividend text_lower)
  let pctHits :=
    ((re.pct text_lower).take 3).map
      (fun pv => pyTitle pv.1 ++ (" change: ") ++ pv.2 ++ ("%"))
  let highlights := patHits ++ pctHits
  let highlights :=
    if highlights.isEmpty then
      (((pySplitDot text).take 2).filter (fun s => 20 < (pyStrip s).length)).map
        (fun s => pyTake (pyStrip s) 100)
    else highlights
  if highlights.isEmpty then ("See PDF for details")
  else joinSep (" | ") (highlights.take 4)

/-- Sentiment scorer of the compact variant (lines 170-191).  The five
rating strings are written here with the exact characters stored in the
source file, whose star glyphs are mojibake (each star appears as the
three characters `‚òÖ`). -/
def assess_investment_implication (text category : String) : String :=
  let text_lower := pyLower text
  let positive_count := countHits POSITIVE_KEYWORDS text_lower
  let negative_count := countHits NEGATIVE_KEYWORDS text_lower
  let positive_count := positive_count + catBonus category
  if negative_count + 2 < positive_count then ("‚òÖ‚òÖ‚òÖ POSITIVE")
  else if negative_count < positive_count then ("‚òÖ‚òÖ MODERATE")
  else if positive_count + 2 < negative_count then ("‚òÖ CAUTIOUS")
  else if positive_count < negative_count then ("‚òÖ‚òÖ WATCH")
  else ("‚òÖ‚òÖ NEUTRAL")

/-- A processed announcement of the compact variant (the dict built at
lines 240-250). -/
structure Ann where
  Company : PyVal
  ScripCode : String
  Category : String
  Subject : String
  Date : String
  Time : String
  KeyHighlights : String
  Implication : String
  PdfLink : String
deriving DecidableEq, Inhabited

/-- String form `str(ann.get('SCRIP_CD', ann.get('SYMBOL', '')))`. -/
def scripStr (a : RawAnn) : String := pyStr (scripVal a)

/-- The deduplication key `f"{scrip_code}_{subject[:50]}_{news_dt}"`
(line 208).  `none` exactly when slicing the subject raises `TypeError`
inside the f-string (before the key could be added to the seen set). -/
def computeKey (a : RawAnn) : Option String :=
  (pySlice 50 (subjVal a)).map
    (fun s50 => scripStr a ++ ("_") ++ pyStr s50 ++ ("_") ++ pyStr (newsDtVal a))

/-- Date display derivation of the compact variant (lines 213-226): on
parse success, `('%d %b %Y', '%I:%M %p')`; on failure, the sentinel
`(str(news_dt)[:11] if news_dt else '', '')`. -/
def parseDateDisplay (now : PyDateTime) (v : PyVal) : String × String :=
  match parseNewsDt now v with
  | some dt => (fmtDateAbbr dt, fmtTime12 dt)
  | none => ((if pyTruthy v then pyTake (pyStr v) 11 else ("")), (""))

/-- One iteration of the processing loop of `process_announcements`
(lines 199-254): returns the updated seen set and the produced
announcement, `none` standing for a skip (duplicate or caught
exception). -/
def processOne (re : Re) (now : PyDateTime) (seen : List String) (a : RawAnn) :
    List String × Option Ann :=
  match computeKey a with
  | none => (seen, none)
  | some key =>
    if key ∈ seen then (seen, none)
    else
      let seen2 := key :: seen
      let ds := parseDateDisplay now (newsDtVal a)
      let attachment := attachVal a
      let pdf_url := if pyTruthy attachment then bsePdfBase ++ ("/") ++ pyStr attachment else ("")
      match subjVal a with
      | .pstr s =>
        let category := categorize_announcement s ("")
        let highlights := extract_key_highlights re s category
        let implication := assess_investment_implication (s ++ (" ") ++ highlights) category
        (seen2, some { Company := companyVal a, ScripCode := scripStr a,
                       Category := category, Subject := pyTake s 200,
                       Date := ds.1, Time := ds.2, KeyHighlights := highlights,
                       Implication := implication, PdfLink := pdf_url })
      | _ => (seen2, none)

/-- The processing loop over the raw records, threading the seen set. -/
def processLoop (re : Re) (now : PyDateTime) : List RawAnn → List String → List Ann
  | [], _ => []
  | a :: rest, seen =>
    let r := processOne re now seen a
    (match r.2 with | some ann => [ann] | none => []) ++ processLoop re now rest r.1

/-- `process_announcements` of the compact variant. -/
def process_announcements (re : Re) (now : PyDateTime) (data : List RawAnn) : List Ann :=
  processLoop re now data []

end V1

namespace V2

/-- Ordered category rule list of `scripts:scrape_announcements.py`
(lines 157-188): an `Investment` rule sits at position 6, `Investor
Presentation` is demoted to position 11, and `ipo` joins the Fund Raising
keywords. -/
def categoryRules : List (List String × String) :=
  [([("board meeting"), ("meeting of board")], ("Board Meeting")),
   ([("financial result"), ("quarterly result"), ("annual result"), ("q1"), ("q2"), ("q3"), ("q4")], ("Financial Results")),
   ([("dividend"), ("interim dividend"), ("final dividend")], ("Dividend")),
   ([("agm"), ("egm"), ("annual general"), ("extraordinary general")], ("AGM/EGM")),
   ([("acquisition"), ("acquire"), ("takeover")], ("Acquisition")),
   ([("investment"), ("invest"), ("stake")], ("Investment")),
   ([("fund raising"), ("qip"), ("preferential"), ("rights issue"), ("fpo"), ("ipo")], ("Fund Raising")),
   ([("merger"), ("demerger"), ("amalgamation"), ("scheme of arrangement")], ("Merger/Demerger")),
   ([("director"), ("appointment"), ("resignation"), ("cessation")], ("Change in Directors")),
   ([("bonus"), ("split"), ("buyback"), ("corporate action")], ("Corporate Action")),
   ([("investor presentation"), ("analyst meet"), ("investor meet")], ("Investor Presentation")),
   ([("concall"), ("conference call"), ("earnings call"), ("transcript")], ("Concall Transcript")),
   ([("order"), ("contract"), ("award"), ("mandate")], ("Order Win")),
   ([("expansion"), ("capacity"), ("capex"), ("new plant"), ("new facility")], ("Expansion")),
   ([("rating"), ("credit rating"), ("upgrade"), ("downgrade")], ("Rating"))]

/-- Categorizer of the extended variant. -/
def categorize_announcement (subject description : String) : String :=
  firstMatch categoryRules (pyLower (subject ++ (" ") ++ description))

/-- Highlight extractor of the extended variant (lines 191-225): eight
named patterns, three percent changes, else up to three long sentence
fragments (not truncated), else the sentinel; at most eight items joined
as bullet lines. -/
def extract_key_highlights (re : Re) (text category : String) : String :=
  let text_lower := pyLower text
  let patHits :=
    tagMatches ("REVENUE") (re.revenue text_lower) ++
    tagMatches ("PROFIT") (re.profit text_lower) ++
    tagMatches ("GROWTH") (re.growth text_lower) ++
    tagMatches ("DIVIDEND") (re.dividend text_lower) ++
    tagMatches ("ORDER_VALUE") (re.order_value text_lower) ++
    tagMatches ("EBITDA") (re.ebitda text_lower) ++
    tagMatches ("MARGIN") (re.margin text_lower) ++
    tagMatches ("EPS") (re.eps text_lower)
  let pctHits :=
    ((re.pct text_lower).take 3).map
      (fun pv => pyTitle pv.1 ++ (" change: ") ++ pv.2 ++ ("%"))
  let highlights := patHits ++ pctHits
  let highlights :=
    if highlights.isEmpty then
      (((pySplitDot text).take 3).filter (fun s => 20 < (pyStrip s).length)).map
        (fun s => pyStrip s)
    else highlights
  if highlights.isEmpty then ("Details in PDF")
  else joinSep ("\n") ((highlights.take 8).map (fun h => ("• ") ++ h))

/-- Sentiment scorer of the extended variant (lines 228-250), with proper
star glyphs and the `MODERATE POSITIVE` label. -/
def assess_investment_implication (text category : String) : String :=
  let text_lower := pyLower text
  let positive_count := countHits POSITIVE_KEYWORDS text_lower
  let negative_count := countHits NEGATIVE_KEYWORDS text_lower
  let positive_count := positive_count + catBonus category
  if negative_count + 2 < positive_count then ("★★★ POSITIVE")
  else if negative_count < positive_count then ("★★ MODERATE POSITIVE")
  else if positive_count + 2 < negative_count then ("★ CAUTIOUS")
  else if positive_count < negative_count then ("★★ WATCH")
  else ("★★ NEUTRAL")

/-- A processed announcement of the extended variant (the dict built at
lines 296-306): the scrip code is kept as the raw value and the subject is
not truncated. -/
structure Ann where
  Company : PyVal
  ScripCode : PyVal
  Category : String
  Subject : String
  Date : String
  Time : String
  KeyHighlights : String
  Implication : String
  PdfLink : String
deriving DecidableEq, Inhabited

/-- Date display derivation of the extended variant (lines 266-279): on
parse success, `('%d %B %Y', '%I:%M %p')`; on failure, the sentinel
`(str(news_dt), '')`. -/
def parseDateDisplay (now : PyDateTime) (v : PyVal) : String × String :=
  match parseNewsDt now v with
  | some dt => (fmtDateFull dt, fmtTime12 dt)
  | none => (pyStr v, (""))

/-- Per-record processing of the extended variant (lines 257-310): no
deduplication; `none` stands for a record skipped by the record-level
exception handler. -/
def processOne (re : Re) (now : PyDateTime) (a : RawAnn) : Option Ann :=
  let ds := parseDateDisplay now (newsDtVal a)
  let attachment := attachVal a
  let pdf_url := if pyTruthy attachment then bsePdfBase ++ ("/") ++ pyStr attachment else ("")
  match subjVal a with
  | .pstr s =>
    let category := categorize_announcement s ("")
    let highlights := extract_key_highlights re s category
    let implication := assess_investment_implication (s ++ (" ") ++ highlights) category
    some { Company := companyVal a, ScripCode := scripVal a,
           Category := category, Subject := s,
           Date := ds.1, Time := ds.2, KeyHighlights := highlights,
           Implication := implication, PdfLink := pdf_url }
  | _ => none

/-- `process_announcements` of the extended variant. -/
def process_announcements (re : Re) (now : PyDateTime) (data : List RawAnn) : List Ann :=
  data.filterMap (processOne re now)

end V2

/-- Lexicographic (code-point) comparison of character lists: the order
Python uses to compare strings. -/
def lexLe : List Char → List Char → Bool
  | [], _ => true
  | _ :: _, [] => false
  | a :: as, b :: bs =>
    if a.toNat < b.toNat then true
    else if b.toNat < a.toNat then false
    else lexLe as bs

/-- Python string comparison `a <= b`. -/
def pyStrLe (a b : String) : Bool := lexLe a.data b.data

/-- Insertion into a list kept sorted descending by a string key; equal
keys keep the existing element first, so repeated insertion is a stable
descending sort. -/
def insertByDesc (key : α → String) (a : α) : List α → List α
  | [] => [a]
  | b :: t => if pyStrLe (key a) (key b) then b :: insertByDesc key a t else a :: b :: t

/-- Model of `list.sort(key=..., reverse=True)`: a stable sort descending
by the string key (here realised as an insertion sort, which has the same
input/output contract). -/
def sortByKeyDesc (key : α → String) (l : List α) : List α :=
  l.foldl (fun acc a => insertByDesc key a acc) []

/-- The list handed to the report renderer by `main` of the compact
variant: the processed announcements sorted by the pre-formatted `Date`
display string, descending (line 466). -/
def V1.sortedOutput (re : Re) (now : PyDateTime) (data : List RawAnn) : List V1.Ann :=
  sortByKeyDesc (fun x => x.Date) (V1.process_announcements re now data)

/-- The list handed to the report renderer by `main` of the extended
variant (line 497). -/
def V2.sortedOutput (re : Re) (now : PyDateTime) (data : List RawAnn) : List V2.Ann :=
  sortByKeyDesc (fun x => x.Date) (V2.process_announcements re now data)

/-! Section: Round-trip lemmas for the digit parsers -/

theorem digitVal_digitChar (d : Nat) (hd : d < 10) : digitVal (digitChar d) = some d := by
  interval_cases d <;> decide

theorem fmt2Chars_eq (n : Nat) :
    fmt2Chars n = digitChar (n / 10 % 10) :: digitChar (n % 10) :: [] := rfl

theorem parse2_app (n : Nat) (hn : n < 100) (r : List Char) :
    parse2 (fmt2Chars n ++ r) = some (n, r) := by
  have h1 : n / 10 % 10 < 10 := by omega
  have h2 : n % 10 < 10 := by omega
  have : fmt2Chars n ++ r = digitChar (n / 10 % 10) :: digitChar (n % 10) :: r := rfl
  rw [this]
  simp only [parse2, digitVal_digitChar _ h1, digitVal_digitChar _ h2,
    Option.some.injEq, Prod.mk.injEq]
  exact ⟨by omega, trivial⟩

theorem parse4_app (n : Nat) (hn : n < 10000) (r : List Char) :
    parse4 (pad4Chars n ++ r) = some (n, r) := by
  have h1 : n / 100 < 100 := by omega
  have h2 : n % 100 < 100 := by omega
  have : pad4Chars n ++ r = fmt2Chars (n / 100) ++ (fmt2Chars (n % 100) ++ r) := by
    simp [pad4Chars]
  rw [parse4, this, parse2_app _ h1]
  have hn2 : 100 * (n / 100) + n % 100 = n := by omega
  simp only [Option.some_bind, parse2_app _ h2]
  simp [Option.map, hn2]

theorem parse12_app (n : Nat) (hn : n < 100) (r : List Char) :
    parse12 (fmt2Chars n ++ r) = some (n, r) := by
  have h1 : n / 10 % 10 < 10 := by omega
  have h2 : n % 10 < 10 := by omega
  have h : fmt2Chars n ++ r = digitChar (n / 10 % 10) :: digitChar (n % 10) :: r := rfl
  rw [h]
  simp only [parse12, digitVal_digitChar _ h1, digitVal_digitChar _ h2, Option.some_bind,
    Option.some.injEq, Prod.mk.injEq]
  exact ⟨by omega, trivial⟩

theorem expectChar_cons (c : Char) (r : List Char) : expectChar c (c :: r) = some r := by
  simp [expectChar]

/-! Section: Character-class facts used by the date parsing proofs -/

theorem digitChar_mod_isDigit (x : Nat) : (digitChar (x % 10)).isDigit = true := by
  have h : x % 10 < 10 := by omega
  set m := x % 10 with hm
  interval_cases m <;> decide

@[simp] theorem z_ne_digitChar (x : Nat) : ('Z' = digitChar (x % 10)) = False := by
  refine eq_false (fun h => ?_)
  have h2 := digitChar_mod_isDigit x
  rw [← h] at h2
  exact absurd h2 (by decide)

@[simp] theorem t_ne_digitChar (x : Nat) : ('T' = digitChar (x % 10)) = False := by
  refine eq_false (fun h => ?_)
  have h2 := digitChar_mod_isDigit x
  rw [← h] at h2
  exact absurd h2 (by decide)

/-- The replacement suffix `+00:00` as characters. -/
def plus00 : List Char := ['+', '0', '0', ':', '0', '0']

theorem replaceZ_of_not_mem (l : List Char) (h : 'Z' ∉ l) : replaceZ l = l := by
  induction l with
  | nil => rfl
  | cons c t ih =>
    have hc : ¬ c = 'Z' := fun hq => h (hq ▸ List.mem_cons_self c t)
    have ht : 'Z' ∉ t := fun hq => h (List.mem_cons_of_mem c hq)
    simp [replaceZ, hc, ih ht]

theorem replaceZ_append (l m : List Char) (h : 'Z' ∉ l) :
    replaceZ (l ++ m) = l ++ replaceZ m := by
  induction l with
  | nil => rfl
  | cons c t ih =>
    have hc : ¬ c = 'Z' := fun hq => h (hq ▸ List.mem_cons_self c t)
    have ht : 'Z' ∉ t := fun hq => h (List.mem_cons_of_mem c hq)
    simp [replaceZ, hc, ih ht]

theorem replaceZ_snoc (l : List Char) (h : 'Z' ∉ l) :
    replaceZ (l ++ ['Z']) = l ++ plus00 := by
  rw [replaceZ_append l ['Z'] h]
  rfl

theorem subAt_one_of_mem (c : Char) (l : List Char) (h : c ∈ l) : subAt [c] l = true := by
  induction l with
  | nil => cases h
  | cons x t ih =>
    rcases List.mem_cons.1 h with h1 | h2
    · subst h1
      simp [subAt, leadsWith]
    · simp [subAt, ih h2]

theorem subAt_one_of_not_mem (c : Char) (l : List Char) (h : c ∉ l) : subAt [c] l = false := by
  induction l with
  | nil => rfl
  | cons x t ih =>
    have hc : ¬ c = x := fun hq => h (hq ▸ List.mem_cons_self x t)
    have ht : c ∉ t := fun hq => h (List.mem_cons_of_mem x hq)
    simp [subAt, leadsWith, hc, ih ht]

theorem data_T : ("T" : String).data = ['T'] := rfl

/-- The canonical characters of an ISO-8601 date-time (without zone). -/
def isoChars (y mo d h mi s : Nat) : List Char :=
  pad4Chars y ++ '-' :: (fmt2Chars mo ++ '-' :: (fmt2Chars d ++ 'T' ::
    (fmt2Chars h ++ ':' :: (fmt2Chars mi ++ ':' :: fmt2Chars s))))

/-- The canonical characters of a `%d-%b-%Y %H:%M:%S` date-time. -/
def dbYChars (d mo y h mi s : Nat) : List Char :=
  fmt2Chars d ++ '-' :: (monthAbbrChars mo ++ '-' :: (pad4Chars y ++ ' ' ::
    (fmt2Chars h ++ ':' :: (fmt2Chars mi ++ ':' :: fmt2Chars s))))

theorem noZ_isoChars (y mo d h mi s : Nat) : 'Z' ∉ isoChars y mo d h mi s := by
  intro hmem
  simp only [isoChars, pad4Chars, fmt2Chars_eq, List.mem_append, List.mem_cons,
    List.not_mem_nil, z_ne_digitChar, or_false, false_or] at hmem
  rcases hmem with h | h | h | h | h <;> exact absurd h (by decide)

theorem noZ_plus00 : 'Z' ∉ plus00 := by decide

theorem hasT_isoChars (y mo d h mi s : Nat) : 'T' ∈ isoChars y mo d h mi s := by
  simp [isoChars, List.mem_append, List.mem_cons]

theorem noT_dbYChars (d mo y h mi s : Nat) (hmo1 : 1 ≤ mo) (hmo2 : mo ≤ 12) :
    'T' ∉ dbYChars d mo y h mi s := by
  intro hmem
  simp only [dbYChars, pad4Chars, fmt2Chars_eq, List.mem_append, List.mem_cons,
    List.not_mem_nil, t_ne_digitChar, or_false, false_or] at hmem
  rcases hmem with h | h | h | h <;> first
    | exact absurd h (by decide)
    | (interval_cases mo <;> exact absurd h (by decide))

theorem daysInMonth_le (y m : Nat) : daysInMonth y m ≤ 31 := by
  unfold daysInMonth
  repeat' split
  all_goals omega

theorem parseOff_plus00 : parseOff plus00 = some (some (false, 0, 0)) := by decide

theorem parseFrac_plus00 : parseFrac plus00 = some plus00 := rfl

theorem parseIsoCore_acc (y mo d h mi s : Nat) (hy : y < 10000) (hmo : mo < 100)
    (hd : d < 100) (hh : h < 100) (hmi : mi < 100) (hs : s < 100) :
    parseIsoCore (isoChars y mo d h mi s ++ plus00) =
      some (y, mo, d, h, mi, s, some (false, 0, 0)) := by
  have e : isoChars y mo d h mi s ++ plus00
      = pad4Chars y ++ '-' :: (fmt2Chars mo ++ '-' :: (fmt2Chars d ++ 'T' ::
        (fmt2Chars h ++ ':' :: (fmt2Chars mi ++ ':' :: (fmt2Chars s ++ plus00))))) := by
    simp [isoChars, List.append_assoc]
  rw [e]
  simp only [parseIsoCore, parse4_app y hy, Option.some_bind, expectChar_cons,
    parse2_app mo hmo, parse2_app d hd, parse2_app h hh, parse2_app mi hmi,
    parse2_app s hs, parseFrac_plus00, parseOff_plus00, Option.map_some]
  rfl

theorem pyFromIsoformat_acc (y mo d h mi s : Nat) (hy1 : 1 ≤ y) (hmo1 : 1 ≤ mo)
    (hmo2 : mo ≤ 12) (hd1 : 1 ≤ d) (hd2 : d ≤ daysInMonth y mo) (hh : h ≤ 23)
    (hmi : mi ≤ 59) (hs : s ≤ 59) (hy : y ≤ 9999) :
    pyFromIsoformat (String.mk (isoChars y mo d h mi s ++ plus00)) =
      some ⟨y, mo, d, h, mi, s, some 0⟩ := by
  have hd31 := daysInMonth_le y mo
  have hcore := parseIsoCore_acc y mo d h mi s (by omega) (by omega) (by omega)
    (by omega) (by omega) (by omega)
  unfold pyFromIsoformat
  have hdata : (String.mk (isoChars y mo d h mi s ++ plus00)).data
      = isoChars y mo d h mi s ++ plus00 := rfl
  rw [hdata, hcore]
  show (if 1 ≤ y ∧ 1 ≤ mo ∧ mo ≤ 12 ∧ 1 ≤ d ∧ d ≤ daysInMonth y mo ∧ h ≤ 23 ∧ mi ≤ 59 ∧
      s ≤ 59 ∧ offOk (some (false, 0, 0))
    then some (⟨y, mo, d, h, mi, s, offMinutes (some (false, 0, 0))⟩ : PyDateTime)
    else none) = some ⟨y, mo, d, h, mi, s, some 0⟩
  rw [if_pos ⟨hy1, hmo1, hmo2, hd1, hd2, hh, hmi, hs, by decide⟩]
  simp [offMinutes]

theorem month3_jan : month3 'J' 'a' 'n' = some 1 := by decide
theorem month3_feb : month3 'F' 'e' 'b' = some 2 := by decide
theorem month3_mar : month3 'M' 'a' 'r' = some 3 := by decide
theorem month3_apr : month3 'A' 'p' 'r' = some 4 := by decide
theorem month3_may : month3 'M' 'a' 'y' = some 5 := by decide
theorem month3_jun : month3 'J' 'u' 'n' = some 6 := by decide
theorem month3_jul : month3 'J' 'u' 'l' = some 7 := by decide
theorem month3_aug : month3 'A' 'u' 'g' = some 8 := by decide
theorem month3_sep : month3 'S' 'e' 'p' = some 9 := by decide
theorem month3_oct : month3 'O' 'c' 't' = some 10 := by decide
theorem month3_nov : month3 'N' 'o' 'v' = some 11 := by decide
theorem month3_dec : month3 'D' 'e' 'c' = some 12 := by decide

theorem parseDbYCore_tail (d y h mi s : Nat) (hd : d < 100) (hy : y < 10000)
    (hh : h < 100) (hmi : mi < 100) (hs : s < 100) (a b c : Char) (mo : Nat)
    (hm : month3 a b c = some mo) :
    parseDbYCore (fmt2Chars d ++ '-' :: (a :: b :: c :: ('-' :: (pad4Chars y ++ ' ' ::
        (fmt2Chars h ++ ':' :: (fmt2Chars mi ++ ':' :: fmt2Chars s)))))) =
      some (d, mo, y, h, mi, s) := by
  simp only [parseDbYCore, parse12_app d hd, Option.some_bind, expectChar_cons, hm,
    parse4_app y hy, parse12_app h hh, parse12_app mi hmi]
  rw [show (fmt2Chars s : List Char) = fmt2Chars s ++ [] from (List.append_nil _).symm,
    parse12_app s hs]
  simp

theorem parseDbYCore_acc (d mo y h mi s : Nat) (hd : d < 100) (hmo1 : 1 ≤ mo)
    (hmo2 : mo ≤ 12) (hy : y < 10000) (hh : h < 100) (hmi : mi < 100) (hs : s < 100) :
    parseDbYCore (dbYChars d mo y h mi s) = some (d, mo, y, h, mi, s) := by
  interval_cases mo <;>
    exact parseDbYCore_tail d y h mi s hd hy hh hmi hs _ _ _ _ (by decide)

theorem pyStrptimeDbY_acc (d mo y h mi s : Nat) (hmo1 : 1 ≤ mo) (hmo2 : mo ≤ 12)
    (hd1 : 1 ≤ d) (hd2 : d ≤ daysInMonth y mo) (hh : h ≤ 23) (hmi : mi ≤ 59)
    (hs : s ≤ 59) (hy1 : 1 ≤ y) (hy2 : y ≤ 9999) :
    pyStrptimeDbY (String.mk (dbYChars d mo y h mi s)) =
      some ⟨y, mo, d, h, mi, s, none⟩ := by
  have hd31 := daysInMonth_le y mo
  have hcore := parseDbYCore_acc d mo y h mi s (by omega) hmo1 hmo2 (by omega)
    (by omega) (by omega) (by omega)
  unfold pyStrptimeDbY
  have hdata : (String.mk (dbYChars d mo y h mi s)).data = dbYChars d mo y h mi s := rfl
  rw [hdata, hcore]
  show (if 1 ≤ y ∧ 1 ≤ d ∧ d ≤ daysInMonth y mo ∧ h ≤ 23 ∧ mi ≤ 59 ∧ s ≤ 59
    then some (⟨y, mo, d, h, mi, s, none⟩ : PyDateTime) else none)
      = some ⟨y, mo, d, h, mi, s, none⟩
  rw [if_pos ⟨hy1, hd1, hd2, hh, hmi, hs⟩]

theorem containsSub_T_true (l : List Char) (h : 'T' ∈ l) :
    containsSub (String.mk l) ("T") = true := by
  show subAt ("T").data l = true
  rw [data_T]
  exact subAt_one_of_mem _ _ h

theorem containsSub_T_false (l : List Char) (h : 'T' ∉ l) :
    containsSub (String.mk l) ("T") = false := by
  show subAt ("T").data l = false
  rw [data_T]
  exact subAt_one_of_not_mem _ _ h

theorem parseNewsDt_iso_plus (now : PyDateTime) (y mo d h mi s : Nat)
    (hy1 : 1 ≤ y) (hmo1 : 1 ≤ mo) (hmo2 : mo ≤ 12) (hd1 : 1 ≤ d)
    (hd2 : d ≤ daysInMonth y mo) (hh : h ≤ 23) (hmi : mi ≤ 59) (hs : s ≤ 59)
    (hy : y ≤ 9999) :
    parseNewsDt now (.pstr (String.mk (isoChars y mo d h mi s ++ plus00))) =
      some ⟨y, mo, d, h, mi, s, some 0⟩ := by
  have hT : 'T' ∈ isoChars y mo d h mi s ++ plus00 :=
    List.mem_append_left _ (hasT_isoChars y mo d h mi s)
  have hrep : replaceZ (isoChars y mo d h mi s ++ plus00) = isoChars y mo d h mi s ++ plus00 := by
    rw [replaceZ_append _ _ (noZ_isoChars y mo d h mi s),
      replaceZ_of_not_mem _ noZ_plus00]
  show (if containsSub (String.mk (isoChars y mo d h mi s ++ plus00)) ("T")
      then pyFromIsoformat (String.mk (replaceZ (String.mk (isoChars y mo d h mi s ++ plus00)).data))
      else pyStrptimeDbY (String.mk (isoChars y mo d h mi s ++ plus00)))
    = some ⟨y, mo, d, h, mi, s, some 0⟩
  rw [containsSub_T_true _ hT]
  show pyFromIsoformat (String.mk (replaceZ (isoChars y mo d h mi s ++ plus00)))
      = some ⟨y, mo, d, h, mi, s, some 0⟩
  rw [hrep]
  exact pyFromIsoformat_acc y mo d h mi s hy1 hmo1 hmo2 hd1 hd2 hh hmi hs hy

theorem parseNewsDt_iso_Z (now : PyDateTime) (y mo d h mi s : Nat)
    (hy1 : 1 ≤ y) (hmo1 : 1 ≤ mo) (hmo2 : mo ≤ 12) (hd1 : 1 ≤ d)
    (hd2 : d ≤ daysInMonth y mo) (hh : h ≤ 23) (hmi : mi ≤ 59) (hs : s ≤ 59)
    (hy : y ≤ 9999) :
    parseNewsDt now (.pstr (String.mk (isoChars y mo d h mi s ++ ['Z']))) =
      some ⟨y, mo, d, h, mi, s, some 0⟩ := by
  have hT : 'T' ∈ isoChars y mo d h mi s ++ ['Z'] :=
    List.mem_append_left _ (hasT_isoChars y mo d h mi s)
  show (if containsSub (String.mk (isoChars y mo d h mi s ++ ['Z'])) ("T")
      then pyFromIsoformat (String.mk (replaceZ (String.mk (isoChars y mo d h mi s ++ ['Z'])).data))
      else pyStrptimeDbY (String.mk (isoChars y mo d h mi s ++ ['Z'])))
    = some ⟨y, mo, d, h, mi, s, some 0⟩
  rw [containsSub_T_true _ hT]
  show pyFromIsoformat (String.mk (replaceZ (isoChars y mo d h mi s ++ ['Z'])))
      = some ⟨y, mo, d, h, mi, s, some 0⟩
  rw [replaceZ_snoc _ (noZ_isoChars y mo d h mi s)]
  exact pyFromIsoformat_acc y mo d h mi s hy1 hmo1 hmo2 hd1 hd2 hh hmi hs hy

theorem parseNewsDt_dbY (now : PyDateTime) (d mo y h mi s : Nat)
    (hmo1 : 1 ≤ mo) (hmo2 : mo ≤ 12) (hd1 : 1 ≤ d) (hd2 : d ≤ daysInMonth y mo)
    (hh : h ≤ 23) (hmi : mi ≤ 59) (hs : s ≤ 59) (hy1 : 1 ≤ y) (hy2 : y ≤ 9999) :
    parseNewsDt now (.pstr (String.mk (dbYChars d mo y h mi s))) =
      some ⟨y, mo, d, h, mi, s, none⟩ := by
  show (if containsSub (String.mk (dbYChars d mo y h mi s)) ("T")
      then pyFromIsoformat (String.mk (replaceZ (String.mk (dbYChars d mo y h mi s)).data))
      else pyStrptimeDbY (String.mk (dbYChars d mo y h mi s)))
    = some ⟨y, mo, d, h, mi, s, none⟩
  rw [containsSub_T_false _ (noT_dbYChars d mo y h mi s hmo1 hmo2)]
  show pyStrptimeDbY (String.mk (dbYChars d mo y h mi s)) = some ⟨y, mo, d, h, mi, s, none⟩
  exact pyStrptimeDbY_acc d mo y h mi s hmo1 hmo2 hd1 hd2 hh hmi hs hy1 hy2

theorem parseNewsDt_nonstr (now : PyDateTime) (v : PyVal) (h : pyIsStr v = false) :
    parseNewsDt now v = some now := by
  cases v with
  | pstr s => simp [pyIsStr] at h
  | pint n => rfl
  | pnone => rfl
  | plist xs => rfl

/-! Section: Properties of the deduplicating processing loop (compact variant) -/

theorem V1.processLoop_cons (re : Re) (now : PyDateTime) (a : RawAnn) (rest : List RawAnn)
    (seen : List String) :
    V1.processLoop re now (a :: rest) seen =
      (match (V1.processOne re now seen a).2 with | some ann => [ann] | none => []) ++
        V1.processLoop re now rest (V1.processOne re now seen a).1 := rfl

/-- The seen set after a prefix of the loop. -/
def V1.seenAfter (re : Re) (now : PyDateTime) (l : List RawAnn) (seen : List String) :
    List String :=
  l.foldl (fun s a => (V1.processOne re now s a).1) seen

theorem V1.seenAfter_append (re : Re) (now : PyDateTime) (l m : List RawAnn)
    (seen : List String) :
    V1.seenAfter re now (l ++ m) seen = V1.seenAfter re now m (V1.seenAfter re now l seen) := by
  simp [V1.seenAfter, List.foldl_append]

theorem V1.seen_subset_processOne (re : Re) (now : PyDateTime) (seen : List String)
    (a : RawAnn) : seen ⊆ (V1.processOne re now seen a).1 := by
  cases hk : V1.computeKey a with
  | none => simp [V1.processOne, hk]
  | some key =>
    by_cases hmem : key ∈ seen
    · simp [V1.processOne, hk, hmem]
    · cases hs : subjVal a <;>
        simp [V1.processOne, hk, hmem, hs, List.subset_cons_self]

theorem V1.key_mem_processOne (re : Re) (now : PyDateTime) (seen : List String)
    (a : RawAnn) (key : String) (hk : V1.computeKey a = some key) :
    key ∈ (V1.processOne re now seen a).1 := by
  by_cases hmem : key ∈ seen
  · exact V1.seen_subset_processOne re now seen a hmem
  · cases hs : subjVal a <;>
      simp [V1.processOne, hk, hmem, hs]

theorem V1.seen_subset_seenAfter (re : Re) (now : PyDateTime) (l : List RawAnn)
    (seen : List String) : seen ⊆ V1.seenAfter re now l seen := by
  induction l generalizing seen with
  | nil => exact fun x hx => hx
  | cons a t ih =>
    exact fun x hx =>
      ih ((V1.processOne re now seen a).1) (V1.seen_subset_processOne re now seen a hx)

theorem V1.processLoop_append (re : Re) (now : PyDateTime) (l m : List RawAnn)
    (seen : List String) :
    V1.processLoop re now (l ++ m) seen =
      V1.processLoop re now l seen ++ V1.processLoop re now m (V1.seenAfter re now l seen) := by
  induction l generalizing seen with
  | nil => rfl
  | cons a t ih =>
    rw [List.cons_append, V1.processLoop_cons, V1.processLoop_cons, ih]
    simp [V1.seenAfter]

theorem V1.processLoop_skip (re : Re) (now : PyDateTime) (a : RawAnn) (rest : List RawAnn)
    (seen : List String) (k : String) (hk : V1.computeKey a = some k) (hmem : k ∈ seen) :
    V1.processLoop re now (a :: rest) seen = V1.processLoop re now rest seen := by
  have h1 : V1.processOne re now seen a = (seen, none) := by
    simp [V1.processOne, hk, hmem]
  rw [V1.processLoop_cons, h1]
  rfl

theorem V1.drop_dups (re : Re) (now : PyDateTime) (k : String) :
    ∀ (l : List RawAnn) (seen : List String), k ∈ seen →
      V1.processLoop re now l seen =
        V1.processLoop re now (l.filter (fun a => !(V1.computeKey a == some k))) seen := by
  intro l
  induction l with
  | nil => intro seen _; rfl
  | cons a t ih =>
    intro seen hmem
    by_cases hk : V1.computeKey a = some k
    · have hp : (fun a => !(V1.computeKey a == some k)) a = false := by
        simp [hk]
      rw [List.filter_cons_of_neg (by simp [hp]),
        V1.processLoop_skip re now a t seen k hk hmem]
      exact ih seen hmem
    · have hp : (fun a => !(V1.computeKey a == some k)) a = true := by
        simp [hk]
      rw [List.filter_cons_of_pos (by simp [hp])]
      rw [V1.processLoop_cons, V1.processLoop_cons]
      rw [ih ((V1.processOne re now seen a).1)
        (V1.seen_subset_processOne re now seen a hmem)]

/-! Section: Properties of the lexicographic descending sort -/

theorem lexLe_refl (l : List Char) : lexLe l l = true := by
  induction l with
  | nil => rfl
  | cons a t ih => simp [lexLe, ih]

theorem lexLe_trans : ∀ (a b c : List Char),
    lexLe a b = true → lexLe b c = true → lexLe a c = true := by
  intro a
  induction a with
  | nil => intro b c _ _; rfl
  | cons x xs ih =>
    intro b c hab hbc
    cases b with
    | nil => simp [lexLe] at hab
    | cons y ys =>
      cases c with
      | nil => simp [lexLe] at hbc
      | cons z zs =>
        simp only [lexLe] at hab hbc ⊢
        split_ifs at hab hbc ⊢ <;>
          first
            | rfl
            | omega
            | (exact ih ys zs hab hbc)
            | (cases hab)
            | (cases hbc)

theorem lexLe_total (a b : List Char) : lexLe a b = true ∨ lexLe b a = true := by
  induction a generalizing b with
  | nil => left; rfl
  | cons x xs ih =>
    cases b with
    | nil => right; rfl
    | cons y ys =>
      simp only [lexLe]
      rcases Nat.lt_trichotomy x.toNat y.toNat with h | h | h
      · left; simp [h]
      · rcases ih ys with h2 | h2
        · left; simp [h, h2]
        · right; simp [h.symm, h2]
      · right; simp [h]

theorem pyStrLe_refl (s : String) : pyStrLe s s = true := lexLe_refl s.data

theorem pyStrLe_trans (a b c : String) (h1 : pyStrLe a b = true) (h2 : pyStrLe b c = true) :
    pyStrLe a c = true := lexLe_trans a.data b.data c.data h1 h2

theorem pyStrLe_of_not (a b : String) (h : ¬ pyStrLe a b = true) : pyStrLe b a = true := by
  rcases lexLe_total a.data b.data with h1 | h1
  · exact absurd h1 h
  · exact h1

theorem mem_insertByDesc (key : α → String) (a x : α) (l : List α) :
    x ∈ insertByDesc key a l ↔ x = a ∨ x ∈ l := by
  induction l with
  | nil => simp [insertByDesc]
  | cons b t ih =>
    by_cases h : pyStrLe (key a) (key b) = true
    · simp only [insertByDesc, if_pos h, List.mem_cons, ih]
      tauto
    · simp only [insertByDesc, if_neg h, List.mem_cons]

theorem pairwise_insertByDesc (key : α → String) (a : α) (l : List α)
    (hl : l.Pairwise (fun x y => pyStrLe (key y) (key x) = true)) :
    (insertByDesc key a l).Pairwise (fun x y => pyStrLe (key y) (key x) = true) := by
  induction l with
  | nil => simp [insertByDesc]
  | cons b t ih =>
    rcases List.pairwise_cons.1 hl with ⟨hb, ht⟩
    by_cases h : pyStrLe (key a) (key b) = true
    · rw [insertByDesc, if_pos h]
      refine List.pairwise_cons.2 ⟨?_, ih ht⟩
      intro x hx
      rcases (mem_insertByDesc key a x t).1 hx with h1 | h1
      · rw [h1]; exact h
      · exact hb x h1
    · rw [insertByDesc, if_neg h]
      refine List.pairwise_cons.2 ⟨?_, hl⟩
      intro x hx
      rcases List.mem_cons.1 hx with h1 | h1
      · rw [h1]; exact pyStrLe_of_not _ _ h
      · exact pyStrLe_trans _ _ _ (hb x h1) (pyStrLe_of_not _ _ h)

theorem pairwise_foldl_insert (key : α → String) (l : List α) :
    ∀ acc : List α, acc.Pairwise (fun x y => pyStrLe (key y) (key x) = true) →
      (l.foldl (fun acc a => insertByDesc key a acc) acc).Pairwise
        (fun x y => pyStrLe (key y) (key x) = true) := by
  induction l with
  | nil => intro acc h; exact h
  | cons a t ih =>
    intro acc h
    exact ih (insertByDesc key a acc) (pairwise_insertByDesc key a acc h)

theorem pairwise_sortByKeyDesc (key : α → String) (l : List α) :
    (sortByKeyDesc key l).Pairwise (fun x y => pyStrLe (key y) (key x) = true) :=
  pairwise_foldl_insert key l [] List.Pairwise.nil

theorem mem_foldl_insert (key : α → String) (l : List α) :
    ∀ (acc : List α) (x : α),
      x ∈ l.foldl (fun acc a => insertByDesc key a acc) acc ↔ x ∈ acc ∨ x ∈ l := by
  induction l with
  | nil => intro acc x; simp
  | cons a t ih =>
    intro acc x
    rw [List.foldl_cons, ih (insertByDesc key a acc) x, mem_insertByDesc]
    simp only [List.mem_cons]
    tauto

theorem mem_sortByKeyDesc (key : α → String) (l : List α) (x : α) :
    x ∈ sortByKeyDesc key l ↔ x ∈ l := by
  rw [sortByKeyDesc, mem_foldl_insert]
  simp

theorem sortByKeyDesc_head_ge (key : α → String) (l : List α) (b : α) (t : List α)
    (h : sortByKeyDesc key l = b :: t) (a : α) (ha : a ∈ l) :
    pyStrLe (key a) (key b) = true := by
  have hmem : a ∈ sortByKeyDesc key l := (mem_sortByKeyDesc key l a).2 ha
  rw [h] at hmem
  rcases List.mem_cons.1 hmem with h1 | h1
  · rw [h1]; exact pyStrLe_refl _
  · have hp := pairwise_sortByKeyDesc key l
    rw [h] at hp
    exact (List.pairwise_cons.1 hp).1 a h1

/-! Section: First-match property of the categorizer cascade -/

theorem firstMatch_at (rules : List (List String × String)) (text : String) :
    ∀ (i : Nat) (hi : i < rules.length),
      ruleHit text (rules.get ⟨i, hi⟩) = true →
      (∀ (j : Nat) (hj : j < rules.length), j < i → ruleHit text (rules.get ⟨j, hj⟩) = false) →
      firstMatch rules text = (rules.get ⟨i, hi⟩).2 := by
  induction rules with
  | nil => intro i hi; exact absurd hi (by simp)
  | cons r rest ih =>
    intro i hi hhit hearlier
    cases i with
    | zero =>
      have h0 : ruleHit text r = true := hhit
      rw [firstMatch]
      rw [show (r.1.any fun kw => containsSub text kw) = ruleHit text r from rfl, h0]
      rfl
    | succ n =>
      have h0 : ruleHit text r = false :=
        hearlier 0 (Nat.succ_pos _) (Nat.succ_pos _)
      rw [firstMatch]
      rw [show (r.1.any fun kw => containsSub text kw) = ruleHit text r from rfl, h0]
      simp only [Bool.false_eq_true, if_false]
      exact ih n (Nat.lt_of_succ_lt_succ hi) hhit
        (fun j hj hlt => hearlier (j + 1) (Nat.succ_lt_succ hj) (Nat.succ_lt_succ hlt))

/-! Section: Concrete inputs used by witnesses and counterexamples -/

/-- A fixed value standing for `datetime.now()` in concrete runs. -/
def now0 : PyDateTime := ⟨2024, 1, 2, 3, 4, 5, none⟩

/-! Section: Claims about the sentiment scorer -/

/-- Claim C1 (amended): for every text and category whose bonus-adjusted
positive count exceeds the negative count by no more than 2, the extended
variant returns the 2-star rating `★★ MODERATE POSITIVE`; the compact
variant returns a rating in the same band whose text is `MODERATE` (not
`MODERATE POSITIVE`) and whose star glyphs are the mojibake sequence
`‚òÖ` per star.  Every returned rating of either scorer is one of its five
fixed strings, each carrying its star-count prefix (3 stars for POSITIVE,
2 for the middle band ratings, 1 for CAUTIOUS) verbatim as stored in its
source file. -/
theorem c1_theorem (text category : String) :
    (countHits NEGATIVE_KEYWORDS (pyLower text) <
        countHits POSITIVE_KEYWORDS (pyLower text) + catBonus category →
      countHits POSITIVE_KEYWORDS (pyLower text) + catBonus category ≤
        countHits NEGATIVE_KEYWORDS (pyLower text) + 2 →
      V2.assess_investment_implication text category = ("★★ MODERATE POSITIVE") ∧
      V1.assess_investment_implication text category = ("‚òÖ‚òÖ MODERATE")) ∧
    V2.assess_investment_implication text category ∈
      [("★★★ POSITIVE"), ("★★ MODERATE POSITIVE"), ("★ CAUTIOUS"), ("★★ WATCH"), ("★★ NEUTRAL")] ∧
    V1.assess_investment_implication text category ∈
      [("‚òÖ‚òÖ‚òÖ POSITIVE"), ("‚òÖ‚òÖ MODERATE"), ("‚òÖ CAUTIOUS"), ("‚òÖ‚òÖ WATCH"), ("‚òÖ‚òÖ NEUTRAL")] := by
  refine ⟨fun h1 h2 => ⟨?_, ?_⟩, ?_, ?_⟩
  · simp only [V2.assess_investment_implication]
    rw [if_neg (by omega), if_pos h1]
  · simp only [V1.assess_investment_implication]
    rw [if_neg (by omega), if_pos h1]
  · simp only [V2.assess_investment_implication]
    split_ifs <;> simp
  · simp only [V1.assess_investment_implication]
    split_ifs <;> simp

/-- Witness for C1: the text `growth` with category `Others` lies in the
band and the two scorers return their respective middle-band strings. -/
theorem c1_witness :
    countHits POSITIVE_KEYWORDS (pyLower ("growth")) + catBonus ("Others") = 1 ∧
    countHits NEGATIVE_KEYWORDS (pyLower ("growth")) = 0 ∧
    V2.assess_investment_implication ("growth") ("Others") = ("★★ MODERATE POSITIVE") ∧
    V1.assess_investment_implication ("growth") ("Others") = ("‚òÖ‚òÖ MODERATE") :=
  ⟨by decide, by decide,
   ((c1_theorem ("growth") ("Others")).1 (by decide) (by decide)).1,
   ((c1_theorem ("growth") ("Others")).1 (by decide) (by decide)).2⟩

/-- Counterexample to C1 as stated: the compact variant's scorer, on a
text/category pair inside the claimed band, returns a rating that does not
even contain the text `MODERATE POSITIVE`. -/
theorem c1_counterexample :
    countHits NEGATIVE_KEYWORDS (pyLower ("growth")) <
      countHits POSITIVE_KEYWORDS (pyLower ("growth")) + catBonus ("Others") ∧
    countHits POSITIVE_KEYWORDS (pyLower ("growth")) + catBonus ("Others") ≤
      countHits NEGATIVE_KEYWORDS (pyLower ("growth")) + 2 ∧
    V1.assess_investment_implication ("growth") ("Others") = ("‚òÖ‚òÖ MODERATE") ∧
    containsSub (V1.assess_investment_implication ("growth") ("Others"))
      ("MODERATE POSITIVE") = false := by
  decide

/-- Claim C6: on a text with exactly one positive-keyword hit and no
negative hits, category `Order Win` (bonus +2, total 3 against 0) yields
the 3-star POSITIVE rating in both variants; the same holds for `Dividend`
and `Expansion`, while `Fund Raising` (+1) and `Others` (+0) stay in the
2-star middle band — the bonus is added to the positive count before the
threshold comparison. -/
theorem c6_theorem (text : String)
    (hp : countHits POSITIVE_KEYWORDS (pyLower text) = 1)
    (hn : countHits NEGATIVE_KEYWORDS (pyLower text) = 0) :
    (V1.assess_investment_implication text ("Order Win") = ("‚òÖ‚òÖ‚òÖ POSITIVE") ∧
     V2.assess_investment_implication text ("Order Win") = ("★★★ POSITIVE")) ∧
    (V1.assess_investment_implication text ("Dividend") = ("‚òÖ‚òÖ‚òÖ POSITIVE") ∧
     V2.assess_investment_implication text ("Dividend") = ("★★★ POSITIVE")) ∧
    (V1.assess_investment_implication text ("Expansion") = ("‚òÖ‚òÖ‚òÖ POSITIVE") ∧
     V2.assess_investment_implication text ("Expansion") = ("★★★ POSITIVE")) ∧
    (V1.assess_investment_implication text ("Fund Raising") = ("‚òÖ‚òÖ MODERATE") ∧
     V2.assess_investment_implication text ("Fund Raising") = ("★★ MODERATE POSITIVE")) ∧
    (V1.assess_investment_implication text ("Others") = ("‚òÖ‚òÖ MODERATE") ∧
     V2.assess_investment_implication text ("Others") = ("★★ MODERATE POSITIVE")) := by
  refine ⟨⟨?_, ?_⟩, ⟨?_, ?_⟩, ⟨?_, ?_⟩, ⟨?_, ?_⟩, ⟨?_, ?_⟩⟩ <;>
    simp only [V1.assess_investment_implication, V2.assess_investment_implication,
      hp, hn, (by decide : catBonus ("Order Win") = 2),
      (by decide : catBonus ("Dividend") = 2), (by decide : catBonus ("Expansion") = 2),
      (by decide : catBonus ("Fund Raising") = 1), (by decide : catBonus ("Others") = 0)] <;>
    norm_num

/-- Witness for C6: the text `new order update` has exactly one positive
hit (`new order`) and no negative hit, and `Order Win` lifts it to the
3-star POSITIVE rating in both variants. -/
theorem c6_witness :
    countHits POSITIVE_KEYWORDS (pyLower ("new order update")) = 1 ∧
    countHits NEGATIVE_KEYWORDS (pyLower ("new order update")) = 0 ∧
    V1.assess_investment_implication ("new order update") ("Order Win") = ("‚òÖ‚òÖ‚òÖ POSITIVE") ∧
    V2.assess_investment_implication ("new order update") ("Order Win") = ("★★★ POSITIVE") :=
  ⟨by decide, by decide,
   (c6_theorem ("new order update") (by decide) (by decide)).1.1,
   (c6_theorem ("new order update") (by decide) (by decide)).1.2⟩

/-! Section: Claims about the categorizer -/

/-- Claim C3 (amended): both categorizers implement first-match semantics
over their own ordered rule lists, and a subject containing both `dividend`
and `board meeting` yields `Board Meeting` in both variants (rule 1
precedes rule 3).  The compact variant's rule list is exactly the ordered
list of the spec, so there rule-6 text with no earlier match yields
`Investor Presentation`; the extended variant inserts an `Investment` rule
at position 6 (its `invest` keyword also matches the text `investor
presentation`) and demotes `Investor Presentation` to position 11, so the
spec's rule-6 instance fails on it (see the counterexample). -/
theorem c3_theorem :
    (∀ (s d : String) (i : Nat) (hi : i < V1.categoryRules.length),
      ruleHit (pyLower (s ++ (" ") ++ d)) (V1.categoryRules.get ⟨i, hi⟩) = true →
      (∀ (j : Nat) (hj : j < V1.categoryRules.length), j < i →
        ruleHit (pyLower (s ++ (" ") ++ d)) (V1.categoryRules.get ⟨j, hj⟩) = false) →
      V1.categorize_announcement s d = (V1.categoryRules.get ⟨i, hi⟩).2) ∧
    (∀ (s d : String) (i : Nat) (hi : i < V2.categoryRules.length),
      ruleHit (pyLower (s ++ (" ") ++ d)) (V2.categoryRules.get ⟨i, hi⟩) = true →
      (∀ (j : Nat) (hj : j < V2.categoryRules.length), j < i →
        ruleHit (pyLower (s ++ (" ") ++ d)) (V2.categoryRules.get ⟨j, hj⟩) = false) →
      V2.categorize_announcement s d = (V2.categoryRules.get ⟨i, hi⟩).2) ∧
    (∀ s d : String,
      containsSub (pyLower (s ++ (" ") ++ d)) ("dividend") = true →
      containsSub (pyLower (s ++ (" ") ++ d)) ("board meeting") = true →
      V1.categorize_announcement s d = ("Board Meeting") ∧
      V2.categorize_announcement s d = ("Board Meeting")) := by
  refine ⟨?_, ?_, ?_⟩
  · intro s d i hi hhit hearlier
    exact firstMatch_at V1.categoryRules (pyLower (s ++ (" ") ++ d)) i hi hhit hearlier
  · intro s d i hi hhit hearlier
    exact firstMatch_at V2.categoryRules (pyLower (s ++ (" ") ++ d)) i hi hhit hearlier
  · intro s d h1 h2
    constructor <;>
      simp [V1.categorize_announcement, V2.categorize_announcement,
        V1.categoryRules, V2.categoryRules, firstMatch, h2]

/-- Witness for C3: a subject matching the Dividend rule and the later
Order Win rule resolves to `Dividend` in the compact variant; `investor
presentation` resolves to `Investment` in the extended variant by its own
first-match order; and a subject with both `dividend` and `board meeting`
yields `Board Meeting` in both. -/
theorem c3_witness :
    V1.categorize_announcement ("dividend and new order book") ("") = ("Dividend") ∧
    V2.categorize_announcement ("investor presentation") ("") = ("Investment") ∧
    V1.categorize_announcement ("interim dividend at the board meeting") ("") = ("Board Meeting") ∧
    V2.categorize_announcement ("interim dividend at the board meeting") ("") = ("Board Meeting") :=
  ⟨c3_theorem.1 ("dividend and new order book") ("") 2 (by decide) (by decide) (by decide),
   c3_theorem.2.1 ("investor presentation") ("") 5 (by decide) (by decide) (by decide),
   (c3_theorem.2.2 ("interim dividend at the board meeting") ("") (by decide) (by decide)).1,
   (c3_theorem.2.2 ("interim dividend at the board meeting") ("") (by decide) (by decide)).2⟩

/-- Counterexample to C3 as stated: the text `investor presentation`
matches the keywords of rule 6 of the spec's ordered list (the compact
variant's list) and no earlier rule of that list, yet the extended
variant's categorizer returns `Investment`, not `Investor Presentation`. -/
theorem c3_counterexample :
    ruleHit (pyLower (("investor presentation") ++ (" ") ++ ("")))
      (V1.categoryRules.get ⟨5, by decide⟩) = true ∧
    (∀ (j : Nat) (hj : j < V1.categoryRules.length), j < 5 →
      ruleHit (pyLower (("investor presentation") ++ (" ") ++ ("")))
        (V1.categoryRules.get ⟨j, hj⟩) = false) ∧
    V2.categorize_announcement ("investor presentation") ("") = ("Investment") ∧
    ¬ V2.categorize_announcement ("investor presentation") ("") = ("Investor Presentation") := by
  refine ⟨by decide, ?_, by decide, by decide⟩
  decide

/-! Section: Claim about the highlight extractor -/

/-- Claim C7: when none of the named numeric patterns matches, the generic
percent-change pattern finds nothing, and no period-split fragment among
the first fragments considered has stripped length above 20 characters,
the extractor returns its fixed sentinel string — `See PDF for details` in
the compact variant and `Details in PDF` in the extended one. -/
theorem c7_theorem (re : Re) (text category : String)
    (h1 : re.revenue (pyLower text) = []) (h2 : re.profit (pyLower text) = [])
    (h3 : re.growth (pyLower text) = []) (h4 : re.dividend (pyLower text) = [])
    (h5 : re.order_value (pyLower text) = []) (h6 : re.ebitda (pyLower text) = [])
    (h7 : re.margin (pyLower text) = []) (h8 : re.eps (pyLower text) = [])
    (h9 : re.pct (pyLower text) = [])
    (hfrag : ∀ s ∈ (pySplitDot text).take 3, ¬ 20 < (pyStrip s).length) :
    V1.extract_key_highlights re text category = ("See PDF for details") ∧
    V2.extract_key_highlights re text category = ("Details in PDF") := by
  have hsub : ∀ s ∈ (pySplitDot text).take 2, ¬ 20 < (pyStrip s).length := by
    intro s hs
    apply hfrag
    have he : (pySplitDot text).take 2 = ((pySplitDot text).take 3).take 2 := by
      rw [List.take_take]
      norm_num
    exact List.take_subset 2 _ (he ▸ hs)
  have hfil2 : ((pySplitDot text).take 2).filter (fun s => 20 < (pyStrip s).length) = [] := by
    rw [List.filter_eq_nil_iff]
    intro a ha
    simpa using hsub a ha
  have hfil3 : ((pySplitDot text).take 3).filter (fun s => 20 < (pyStrip s).length) = [] := by
    rw [List.filter_eq_nil_iff]
    intro a ha
    simpa using hfrag a ha
  constructor
  · simp [V1.extract_key_highlights, h1, h2, h3, h4, h9, tagMatches, hfil2]
  · simp [V2.extract_key_highlights, h1, h2, h3, h4, h5, h6, h7, h8, h9, tagMatches, hfil3]

/-- Witness for C7: the trivial regex engine finds nothing in the text
`hi`, whose only fragment is far shorter than 21 characters, so both
extractors emit their sentinel. -/
theorem c7_witness :
    reNone.pct (pyLower ("hi")) = [] ∧
    (∀ s ∈ (pySplitDot ("hi")).take 3, ¬ 20 < (pyStrip s).length) ∧
    V1.extract_key_highlights reNone ("hi") ("Others") = ("See PDF for details") ∧
    V2.extract_key_highlights reNone ("hi") ("Others") = ("Details in PDF") :=
  ⟨rfl, by decide,
   (c7_theorem reNone ("hi") ("Others") rfl rfl rfl rfl rfl rfl rfl rfl rfl (by decide)).1,
   (c7_theorem reNone ("hi") ("Others") rfl rfl rfl rfl rfl rfl rfl rfl rfl (by decide)).2⟩

/-! Section: Claims about date parsing -/

/-- Claim C4 (amended): the date parsing of both variants accepts
ISO-8601-with-zone strings and strings in the fixed
`day-abbreviated month-year hour:minute:second` format, deriving the
display strings from the parsed datetime; a NON-STRING value falls back to
the current time; but a STRING on which parsing fails does not fall back
to now — it yields the sentinel display `(str(news_dt)[:11], '')` in the
compact variant and `(str(news_dt), '')` in the extended one. -/
theorem c4_theorem :
    (∀ (now : PyDateTime) (y mo d h mi s : Nat), 1 ≤ y → 1 ≤ mo → mo ≤ 12 → 1 ≤ d →
      d ≤ daysInMonth y mo → h ≤ 23 → mi ≤ 59 → s ≤ 59 → y ≤ 9999 →
      V1.parseDateDisplay now (.pstr (String.mk (isoChars y mo d h mi s ++ plus00))) =
        (fmtDateAbbr ⟨y, mo, d, h, mi, s, some 0⟩, fmtTime12 ⟨y, mo, d, h, mi, s, some 0⟩) ∧
      V2.parseDateDisplay now (.pstr (String.mk (isoChars y mo d h mi s ++ plus00))) =
        (fmtDateFull ⟨y, mo, d, h, mi, s, some 0⟩, fmtTime12 ⟨y, mo, d, h, mi, s, some 0⟩)) ∧
    (∀ (now : PyDateTime) (d mo y h mi s : Nat), 1 ≤ mo → mo ≤ 12 → 1 ≤ d →
      d ≤ daysInMonth y mo → h ≤ 23 → mi ≤ 59 → s ≤ 59 → 1 ≤ y → y ≤ 9999 →
      V1.parseDateDisplay now (.pstr (String.mk (dbYChars d mo y h mi s))) =
        (fmtDateAbbr ⟨y, mo, d, h, mi, s, none⟩, fmtTime12 ⟨y, mo, d, h, mi, s, none⟩) ∧
      V2.parseDateDisplay now (.pstr (String.mk (dbYChars d mo y h mi s))) =
        (fmtDateFull ⟨y, mo, d, h, mi, s, none⟩, fmtTime12 ⟨y, mo, d, h, mi, s, none⟩)) ∧
    (∀ (now : PyDateTime) (v : PyVal), pyIsStr v = false →
      V1.parseDateDisplay now v = (fmtDateAbbr now, fmtTime12 now) ∧
      V2.parseDateDisplay now v = (fmtDateFull now, fmtTime12 now)) ∧
    (∀ (now : PyDateTime) (str : String), parseNewsDt now (.pstr str) = none →
      V1.parseDateDisplay now (.pstr str) =
        ((if pyTruthy (.pstr str) then pyTake str 11 else ("")), ("")) ∧
      V2.parseDateDisplay now (.pstr str) = (str, (""))) := by
  refine ⟨?_, ?_, ?_, ?_⟩
  · intro now y mo d h mi s hy1 hmo1 hmo2 hd1 hd2 hh hmi hs hy
    have hp := parseNewsDt_iso_plus now y mo d h mi s hy1 hmo1 hmo2 hd1 hd2 hh hmi hs hy
    constructor <;> simp [V1.parseDateDisplay, V2.parseDateDisplay, hp]
  · intro now d mo y h mi s hmo1 hmo2 hd1 hd2 hh hmi hs hy1 hy2
    have hp := parseNewsDt_dbY now d mo y h mi s hmo1 hmo2 hd1 hd2 hh hmi hs hy1 hy2
    constructor <;> simp [V1.parseDateDisplay, V2.parseDateDisplay, hp]
  · intro now v hv
    have hp := parseNewsDt_nonstr now v hv
    constructor <;> simp [V1.parseDateDisplay, V2.parseDateDisplay, hp]
  · intro now str hfail
    constructor <;> simp [V1.parseDateDisplay, V2.parseDateDisplay, hfail, pyStr]

/-- Witness for C4: concrete acceptance of `2024-01-02T13:30:00+00:00` and
`02-Jan-2024 13:30:00`, the now-fallback on the integer value `7`, and the
sentinel display on the unparseable string `garbage`. -/
theorem c4_witness :
    V1.parseDateDisplay now0 (.pstr (String.mk (isoChars 2024 1 2 13 30 0 ++ plus00))) =
      (("02 Jan 2024"), ("01:30 PM")) ∧
    V2.parseDateDisplay now0 (.pstr (String.mk (dbYChars 2 1 2024 13 30 0))) =
      (("02 January 2024"), ("01:30 PM")) ∧
    V1.parseDateDisplay now0 (.pint 7) = (("02 Jan 2024"), ("03:04 AM")) ∧
    V1.parseDateDisplay now0 (.pstr ("garbage")) = (("garbage"), ("")) := by
  refine ⟨?_, ?_, ?_, ?_⟩
  · exact ((c4_theorem.1 now0 2024 1 2 13 30 0 (by decide) (by decide) (by decide)
      (by decide) (by decide) (by decide) (by decide) (by decide) (by decide)).1).trans (by decide)
  · exact ((c4_theorem.2.1 now0 2 1 2024 13 30 0 (by decide) (by decide) (by decide)
      (by decide) (by decide) (by decide) (by decide) (by decide) (by decide)).2).trans (by decide)
  · exact ((c4_theorem.2.2.1 now0 (.pint 7) (by decide)).1).trans (by decide)
  · exact ((c4_theorem.2.2.2 now0 ("garbage") (by decide)).1).trans (by decide)

/-- Counterexample to C4 as stated: on the string `garbage` parsing fails,
and the resulting display pair is the raw-string sentinel, not the display
of the current time — the fallback-to-now happens only for non-string
values. -/
theorem c4_counterexample :
    parseNewsDt now0 (.pstr ("garbage")) = none ∧
    V1.parseDateDisplay now0 (.pstr ("garbage")) = (("garbage"), ("")) ∧
    V2.parseDateDisplay now0 (.pstr ("garbage")) = (("garbage"), ("")) ∧
    ¬ V1.parseDateDisplay now0 (.pstr ("garbage")) = (fmtDateAbbr now0, fmtTime12 now0) ∧
    ¬ V2.parseDateDisplay now0 (.pstr ("garbage")) = (fmtDateFull now0, fmtTime12 now0) := by
  decide

/-- Claim C8: an ISO-8601 date-time string with a `Z` suffix parses to the
same instant as its `+00:00` equivalent — the `Z` is textually replaced by
`+00:00` before `fromisoformat` runs, so the parsed datetimes and hence
both display strings coincide in both variants. -/
theorem c8_theorem (now : PyDateTime) (y mo d h mi s : Nat) (hy1 : 1 ≤ y)
    (hmo1 : 1 ≤ mo) (hmo2 : mo ≤ 12) (hd1 : 1 ≤ d) (hd2 : d ≤ daysInMonth y mo)
    (hh : h ≤ 23) (hmi : mi ≤ 59) (hs : s ≤ 59) (hy : y ≤ 9999) :
    parseNewsDt now (.pstr (String.mk (isoChars y mo d h mi s ++ ['Z']))) =
      parseNewsDt now (.pstr (String.mk (isoChars y mo d h mi s ++ plus00))) ∧
    parseNewsDt now (.pstr (String.mk (isoChars y mo d h mi s ++ ['Z']))) =
      some ⟨y, mo, d, h, mi, s, some 0⟩ ∧
    V1.parseDateDisplay now (.pstr (String.mk (isoChars y mo d h mi s ++ ['Z']))) =
      V1.parseDateDisplay now (.pstr (String.mk (isoChars y mo d h mi s ++ plus00))) ∧
    V2.parseDateDisplay now (.pstr (String.mk (isoChars y mo d h mi s ++ ['Z']))) =
      V2.parseDateDisplay now (.pstr (String.mk (isoChars y mo d h mi s ++ plus00))) := by
  have hz := parseNewsDt_iso_Z now y mo d h mi s hy1 hmo1 hmo2 hd1 hd2 hh hmi hs hy
  have hp := parseNewsDt_iso_plus now y mo d h mi s hy1 hmo1 hmo2 hd1 hd2 hh hmi hs hy
  refine ⟨hz.trans hp.symm, hz, ?_, ?_⟩ <;>
    simp [V1.parseDateDisplay, V2.parseDateDisplay, hz, hp]

/-- Witness for C8: the concrete pair `2024-01-02T13:30:00Z` and
`2024-01-02T13:30:00+00:00` parse to the same instant with identical
display strings. -/
theorem c8_witness :
    String.mk (isoChars 2024 1 2 13 30 0 ++ ['Z']) = ("2024-01-02T13:30:00Z") ∧
    String.mk (isoChars 2024 1 2 13 30 0 ++ plus00) = ("2024-01-02T13:30:00+00:00") ∧
    parseNewsDt now0 (.pstr (String.mk (isoChars 2024 1 2 13 30 0 ++ ['Z']))) =
      parseNewsDt now0 (.pstr (String.mk (isoChars 2024 1 2 13 30 0 ++ plus00))) ∧
    V1.parseDateDisplay now0 (.pstr (String.mk (isoChars 2024 1 2 13 30 0 ++ ['Z']))) =
      V1.parseDateDisplay now0 (.pstr (String.mk (isoChars 2024 1 2 13 30 0 ++ plus00))) ∧
    V2.parseDateDisplay now0 (.pstr (String.mk (isoChars 2024 1 2 13 30 0 ++ ['Z']))) =
      V2.parseDateDisplay now0 (.pstr (String.mk (isoChars 2024 1 2 13 30 0 ++ plus00))) :=
  ⟨by decide, by decide,
   (c8_theorem now0 2024 1 2 13 30 0 (by decide) (by decide) (by decide) (by decide)
     (by decide) (by decide) (by decide) (by decide) (by decide)).1,
   (c8_theorem now0 2024 1 2 13 30 0 (by decide) (by decide) (by decide) (by decide)
     (by decide) (by decide) (by decide) (by decide) (by decide)).2.2.1,
   (c8_theorem now0 2024 1 2 13 30 0 (by decide) (by decide) (by decide) (by decide)
     (by decide) (by decide) (by decide) (by decide) (by decide)).2.2.2⟩

/-! Section: Claims about the normalizer / deduplicator -/

/-- Whether the record's subject value is not a Python string — exactly
the records on which per-record processing raises a caught `TypeError`
(while slicing for `int`/`None`, or while concatenating during
categorization for a list). -/
def subjNotStr (a : RawAnn) : Bool := !(pyIsStr (subjVal a))

/-- Whether the record's subject value is a Python list — the shape on
which the compact variant's per-record processing raises only after the
dedup key has been added to the seen set. -/
def subjIsList (a : RawAnn) : Bool :=
  match subjVal a with
  | .plist _ => true
  | _ => false

/-- Claim C2 (amended, compact variant): if two raw records have the same
deduplication key — same `str(scrip)`, same first 50 subject characters,
same raw date field — then dropping the later one leaves the output of the
deduplicating `process_announcements` loop unchanged: only the first
occurrence can contribute an Announcement and the later duplicate is
dropped silently, even when the subjects differ from the 51st character
onward.  (The extended variant has no deduplication at all; see the
counterexample.) -/
theorem c2_theorem (re : Re) (now : PyDateTime) (l1 l2 l3 : List RawAnn)
    (r1 r2 : RawAnn) (seen : List String) (k : String)
    (h1 : V1.computeKey r1 = some k) (h2 : V1.computeKey r2 = some k) :
    V1.processLoop re now (l1 ++ r1 :: l2 ++ r2 :: l3) seen =
      V1.processLoop re now (l1 ++ r1 :: l2 ++ l3) seen := by
  have e1 : l1 ++ r1 :: l2 ++ r2 :: l3 = (l1 ++ r1 :: l2) ++ (r2 :: l3) := by simp
  have e2 : l1 ++ r1 :: l2 ++ l3 = (l1 ++ r1 :: l2) ++ l3 := by simp
  have hL := V1.processLoop_append re now (l1 ++ r1 :: l2) (r2 :: l3) seen
  have hR := V1.processLoop_append re now (l1 ++ r1 :: l2) l3 seen
  rw [e1, e2, hL, hR]
  congr 1
  have hkS : k ∈ V1.seenAfter re now (l1 ++ r1 :: l2) seen := by
    rw [show l1 ++ r1 :: l2 = (l1 ++ [r1]) ++ l2 by simp, V1.seenAfter_append,
      V1.seenAfter_append]
    refine V1.seen_subset_seenAfter re now l2 _ ?_
    show k ∈ V1.seenAfter re now [r1] (V1.seenAfter re now l1 seen)
    exact V1.key_mem_processOne re now _ r1 k h1
  exact V1.processLoop_skip re now r2 l3 _ k h2 hkS

/-- A 50-character subject prefix shared by the two C2 witness records. -/
def a50 : String := ("aaaaaaaaaaaaaaaaaaaaaaaaaaaaaaaaaaaaaaaaaaaaaaaaaa")

/-- First C2 witness record. -/
def c2rec1 : RawAnn :=
  mkRaw (.pstr ("500325")) (.pstr (a50 ++ ("X123456789"))) (.pstr ("02-Jan-2024 10:00:00"))

/-- Second C2 witness record: same scrip and date, subject differing only
from the 51st character on. -/
def c2rec2 : RawAnn :=
  mkRaw (.pstr ("500325")) (.pstr (a50 ++ ("Y987654321"))) (.pstr ("02-Jan-2024 10:00:00"))

/-- The shared dedup key of the two C2 witness records. -/
def c2key : String := ("500325_") ++ a50 ++ ("_02-Jan-2024 10:00:00")

/-- Witness for C2: two records with distinct subjects but identical keys
collapse — the processing output of `[c2rec1, c2rec2]` equals that of
`[c2rec1]` alone. -/
theorem c2_witness :
    V1.computeKey c2rec1 = some c2key ∧
    V1.computeKey c2rec2 = some c2key ∧
    ¬ subjVal c2rec1 = subjVal c2rec2 ∧
    V1.processLoop reNone now0 [c2rec1, c2rec2] [] =
      V1.processLoop reNone now0 [c2rec1] [] :=
  ⟨by decide, by decide, by decide,
   c2_theorem reNone now0 [] [] [] c2rec1 c2rec2 [] c2key (by decide) (by decide)⟩

/-- A raw record used to exhibit the missing deduplication of the extended
variant. -/
def c2dup : RawAnn :=
  mkRaw (.pstr ("500325")) (.pstr ("dividend declared today")) (.pstr ("02-Jan-2024 10:00:00"))

/-- Counterexample to C2 as stated: the extended variant's
`process_announcements` performs no deduplication, so two coinciding raw
records produce two Announcements, not one. -/
theorem c2_counterexample :
    (V2.process_announcements reNone now0 [c2dup, c2dup]).length = 2 ∧
    ¬ (V2.process_announcements reNone now0 [c2dup, c2dup]).length = 1 := by
  decide

/-- Claim C5: the normalizer of both variants is total (it is a function
in this model) and a record whose processing raises — any record whose
subject value is not a string, the only record-level exception source —
contributes no Announcement while the loop continues over the remaining
records with the updated seen set. -/
theorem c5_theorem (re : Re) (now : PyDateTime) (a : RawAnn) (rest : List RawAnn)
    (seen : List String) (h : subjNotStr a = true) :
    (V1.processOne re now seen a).2 = none ∧
    V1.processLoop re now (a :: rest) seen =
      V1.processLoop re now rest ((V1.processOne re now seen a).1) ∧
    V2.processOne re now a = none ∧
    V2.process_announcements re now (a :: rest) = V2.process_announcements re now rest := by
  have h2 : (V1.processOne re now seen a).2 = none := by
    cases hs : subjVal a with
    | pstr s => rw [subjNotStr, hs] at h; simp [pyIsStr] at h
    | pint n => simp [V1.processOne, V1.computeKey, pySlice, hs]
    | pnone => simp [V1.processOne, V1.computeKey, pySlice, hs]
    | plist xs =>
      cases hk : V1.computeKey a with
      | none => simp [V1.processOne, hk]
      | some key =>
        by_cases hmem : key ∈ seen <;> simp [V1.processOne, hk, hmem, hs]
  have h3 : V2.processOne re now a = none := by
    cases hs : subjVal a with
    | pstr s => rw [subjNotStr, hs] at h; simp [pyIsStr] at h
    | pint n => simp [V2.processOne, hs]
    | pnone => simp [V2.processOne, hs]
    | plist xs => simp [V2.processOne, hs]
  refine ⟨h2, ?_, h3, ?_⟩
  · rw [V1.processLoop_cons, h2]
    rfl
  · rw [V2.process_announcements, V2.process_announcements, List.filterMap_cons, h3]

/-- A record whose subject field holds an integer: its processing raises
`TypeError` in both variants. -/
def c5bad : RawAnn := mkRaw (.pstr ("100")) (.pint 5) (.pstr ("02-Jan-2024 10:00:00"))

/-- A well-formed record following the bad one. -/
def c5good : RawAnn := mkRaw (.pstr ("200")) (.pstr ("results announced")) (.pstr ("02-Jan-2024 11:00:00"))

/-- Witness for C5: the integer-subject record is skipped and the
following record is still processed (the run yields exactly one
Announcement in each variant). -/
theorem c5_witness :
    subjNotStr c5bad = true ∧
    (V1.processOne reNone now0 [] c5bad).2 = none ∧
    V1.processLoop reNone now0 (c5bad :: [c5good]) [] =
      V1.processLoop reNone now0 [c5good] ((V1.processOne reNone now0 [] c5bad).1) ∧
    V2.processOne reNone now0 c5bad = none ∧
    V2.process_announcements reNone now0 (c5bad :: [c5good]) =
      V2.process_announcements reNone now0 [c5good] ∧
    (V1.process_announcements reNone now0 [c5bad, c5good]).length = 1 ∧
    (V2.process_announcements reNone now0 [c5bad, c5good]).length = 1 :=
  ⟨by decide,
   (c5_theorem reNone now0 c5bad [c5good] [] (by decide)).1,
   (c5_theorem reNone now0 c5bad [c5good] [] (by decide)).2.1,
   (c5_theorem reNone now0 c5bad [c5good] [] (by decide)).2.2.1,
   (c5_theorem reNone now0 c5bad [c5good] [] (by decide)).2.2.2,
   by decide, by decide⟩

/-- Claim C10 (compact variant): a record whose subject is a list computes
a dedup key and passes the membership test, the key is added to the seen
set, and only then does categorization raise; the caught failure therefore
consumes the key — the record yields `(key :: seen, none)` — and every
later record with the same key is dropped by the seen-set test, so the
run's output equals the output with all same-key records removed and the
key already seen: no Announcement is ever produced for that key. -/
theorem c10_theorem (re : Re) (now : PyDateTime) (r : RawAnn) (l2 : List RawAnn)
    (seen : List String) (k : String) (hlist : subjIsList r = true)
    (hk : V1.computeKey r = some k) (hseen : k ∉ seen) :
    V1.processOne re now seen r = (k :: seen, none) ∧
    V1.processLoop re now (r :: l2) seen =
      V1.processLoop re now (l2.filter (fun a => !(V1.computeKey a == some k)))
        (k :: seen) := by
  have hxs : ∃ xs, subjVal r = .plist xs := by
    cases hs : subjVal r <;> simp [subjIsList, hs] at hlist ⊢
  obtain ⟨xs, hxs⟩ := hxs
  have h1 : V1.processOne re now seen r = (k :: seen, none) := by
    simp [V1.processOne, hk, hseen, hxs]
  refine ⟨h1, ?_⟩
  rw [V1.processLoop_cons, h1]
  show V1.processLoop re now l2 (k :: seen) = _
  exact V1.drop_dups re now k l2 (k :: seen) (List.mem_cons_self k seen)

/-- C10 witness: a record whose subject is the list `['x']`. -/
def c10bad : RawAnn := mkRaw (.pstr ("500")) (.plist [("x")]) (.pstr ("d"))

/-- C10 witness: a later well-formed record whose subject string is the
`repr` of that list, so its dedup key collides with the failed record's. -/
def c10later : RawAnn :=
  mkRaw (.pstr ("500")) (.pstr (("[") ++ pyQuote ++ ("x") ++ pyQuote ++ ("]"))) (.pstr ("d"))

/-- The dedup key consumed by the failed C10 record. -/
def c10key : String := ("500_[") ++ pyQuote ++ ("x") ++ pyQuote ++ ("]_d")

/-- Witness for C10: the list-subject record consumes the key before
failing, and the later record with the same key — although it would
process fine on its own — is dropped, so the run produces no Announcement
at all. -/
theorem c10_witness :
    subjIsList c10bad = true ∧
    V1.computeKey c10bad = some c10key ∧
    V1.computeKey c10later = some c10key ∧
    V1.processOne reNone now0 [] c10bad = (c10key :: [], none) ∧
    V1.processLoop reNone now0 (c10bad :: [c10later]) [] =
      V1.processLoop reNone now0
        ([c10later].filter (fun a => !(V1.computeKey a == some c10key))) (c10key :: []) ∧
    V1.process_announcements reNone now0 [c10bad, c10later] = [] ∧
    (V1.process_announcements reNone now0 [c10later]).length = 1 :=
  ⟨by decide, by decide, by decide,
   (c10_theorem reNone now0 c10bad [c10later] [] c10key (by decide) (by decide)
     (by simp)).1,
   (c10_theorem reNone now0 c10bad [c10later] [] c10key (by decide) (by decide)
     (by simp)).2,
   by decide, by decide⟩

/-! Section: Claim about the final sort -/

/-- Claim C9: the list handed to the report renderer — the processed
announcements sorted by `main` with `key=x['Date'], reverse=True` — is in
descending lexicographic order of the pre-formatted `Date` display string
(a plain string sort): every element's `Date` is `≥` (in code-point
order) every later element's, and whenever the sorted list is non-empty
its first element's `Date` is greatest among all processed records.  This
holds for both variants. -/
theorem c9_theorem (re : Re) (now : PyDateTime) (data : List RawAnn) :
    ((V1.sortedOutput re now data).Pairwise (fun x y => pyStrLe y.Date x.Date = true) ∧
     ∀ (b : V1.Ann) (t : List V1.Ann), V1.sortedOutput re now data = b :: t →
       ∀ a ∈ V1.process_announcements re now data, pyStrLe a.Date b.Date = true) ∧
    ((V2.sortedOutput re now data).Pairwise (fun x y => pyStrLe y.Date x.Date = true) ∧
     ∀ (b : V2.Ann) (t : List V2.Ann), V2.sortedOutput re now data = b :: t →
       ∀ a ∈ V2.process_announcements re now data, pyStrLe a.Date b.Date = true) := by
  refine ⟨⟨?_, ?_⟩, ⟨?_, ?_⟩⟩
  · exact pairwise_sortByKeyDesc _ _
  · intro b t hbt a ha
    exact sortByKeyDesc_head_ge _ _ b t hbt a ha
  · exact pairwise_sortByKeyDesc _ _
  · intro b t hbt a ha
    exact sortByKeyDesc_head_ge _ _ b t hbt a ha

/-- Three raw records with distinct dates for the C9 witness. -/
def data3 : List RawAnn :=
  [mkRaw (.pstr ("500001")) (.pstr ("aa")) (.pstr ("01-Jan-2024 10:00:00")),
   mkRaw (.pstr ("500002")) (.pstr ("bb")) (.pstr ("03-Feb-2024 09:00:00")),
   mkRaw (.pstr ("500003")) (.pstr ("cc")) (.pstr ("02-Jan-2024 11:00:00"))]

/-- Witness for C9: three records sort to the date display strings
`03 Feb 2024`, `02 Jan 2024`, `01 Jan 2024` (a lexicographically
descending string sort), the sorted list is pairwise descending in both
variants, and the head's date dominates the date of every processed
record. -/
theorem c9_witness :
    (V1.sortedOutput reNone now0 data3).map (fun x => x.Date) =
      [("03 Feb 2024"), ("02 Jan 2024"), ("01 Jan 2024")] ∧
    (V1.sortedOutput reNone now0 data3).Pairwise (fun x y => pyStrLe y.Date x.Date = true) ∧
    (V2.sortedOutput reNone now0 data3).Pairwise (fun x y => pyStrLe y.Date x.Date = true) ∧
    pyStrLe ((V1.process_announcements reNone now0 data3).headI).Date
      (((V1.sortedOutput reNone now0 data3).headI).Date) = true :=
  ⟨by decide,
   (c9_theorem reNone now0 data3).1.1,
   (c9_theorem reNone now0 data3).2.1,
   (c9_theorem reNone now0 data3).1.2 ((V1.sortedOutput reNone now0 data3).headI)
     ((V1.sortedOutput reNone now0 data3).tail) (by decide)
     ((V1.process_announcements reNone now0 data3).headI) (by decide)⟩
